import Mathlib

/-!
# grunt-protractor-webdriver, `tasks/protractor_webdriver.js`

A shallow embedding of the `Webdriver` supervisor.  One `Webdriver(context, options,
restarted)` call owns the closure variables `server`, `sessions`, `status`, `stackTrace`,
`failureTimeout` and `destroy`; they are the fields of `Instance`.  The functions `started`,
`stop`, `exit` and `data` of the source become state transformers that also return the list of
calls made to the outside world (`Effect`).  Asynchronous continuations (the `end` handler of
the shutdown response, the grace timer, the listeners registered in `start`) are run by
`step`, one event at a time.

Conventions of the embedding:

* `grunt.fatal` and `done` are callbacks of the instance: a call is recorded as an effect and
  the instance goes on handling events (what the host does after `grunt.fatal` is not part
  of this file).
* Every `setTimeout` and every `http.get` gets a fresh name; the armed timers and the
  requests whose response has not ended are kept in the state, so that the environment can
  only fire a timer that is armed and only end a response that is outstanding.
* `http.get` throws, before any request exists, for a URL Node rejects (an endpoint
  announced as `https://...`, a string that is no URL).  Which URLs these are is Node's
  business, not the repository's: it is the parameter `HttpGet.throws`, and what is proved
  holds for every choice of it.  The exception is recorded as the effect `uncaught`; `stop`
  has set `status[0]` by then and nothing clears it.
* `exit` destroys `selenium.stdout` and `selenium.stderr`; a destroyed stream emits no
  further `data`, so `step` does not hand a text to `data` once `destroyed` is set.
* `grunt.log` / `grunt.verbose` output is left out (it never touches the closure variables),
  and so is `exec` (the platform dependent `spawn`).
* JavaScript strings are taken to be Lean strings; the session counter, a double in
  JavaScript, is an `Int` (exact below `2^53`).
-/

namespace ProtractorWebdriver

/-! ## Regular expressions -/

/-- The line terminators of ECMAScript: the characters `.` does not match. -/
def isLineTerminator (c : Char) : Bool :=
  c.toNat == 0x0A || c.toNat == 0x0D || c.toNat == 0x2028 || c.toNat == 0x2029

/-- The characters `String.prototype.trim` removes that are not line terminators
(ECMAScript `WhiteSpace`: tab, VT, FF, space, NBSP, BOM and category `Zs`). -/
def isWhiteSpace (c : Char) : Bool :=
  c.toNat == 0x09 || c.toNat == 0x0B || c.toNat == 0x0C || c.toNat == 0x20 ||
  c.toNat == 0xA0 || c.toNat == 0x1680 || (0x2000 ≤ c.toNat && c.toNat ≤ 0x200A) ||
  c.toNat == 0x202F || c.toNat == 0x205F || c.toNat == 0x3000 || c.toNat == 0xFEFF

/-- `Canonicalize` of the `i` flag, as far as it matters here: an ASCII lower case letter
becomes upper case.  A character above U+007F never canonicalizes to an ASCII character
(ECMAScript 21.2.2.8.2, step 3.g), so against the ASCII pattern `OKOK` leaving it alone
gives the same comparisons. -/
def canonicalize (c : Char) : Char :=
  if 97 ≤ c.toNat ∧ c.toNat ≤ 122 then Char.ofNat (c.toNat - 32) else c

/-- One pattern character against one input character. -/
def charMatches (ignoreCase : Bool) (p c : Char) : Bool :=
  if ignoreCase then canonicalize p == canonicalize c else p == c

/-- The literal `lit` matches at the start of the input. -/
def matchHere (ignoreCase : Bool) : List Char → List Char → Bool
  | [], _ => true
  | _ :: _, [] => false
  | p :: ps, c :: cs => charMatches ignoreCase p c && matchHere ignoreCase ps cs

/-- Leftmost match of a literal: the input that follows the match, if there is one. -/
def search (ignoreCase : Bool) (lit : List Char) : List Char → Option (List Char)
  | [] => if matchHere ignoreCase lit [] then some [] else none
  | c :: cs =>
    if matchHere ignoreCase lit (c :: cs) then some ((c :: cs).drop lit.length)
    else search ignoreCase lit cs

/-- What a greedy `(.*)` captures: everything up to the next line terminator. -/
def dotStar (l : List Char) : List Char :=
  l.takeWhile (fun c => !isLineTerminator c)

/-- `test` for a pattern `lit(.*)\]`: some occurrence of `lit` is followed, on the same
line, by a closing bracket. -/
def testBracketed (lit : List Char) : List Char → Bool
  | [] => false
  | c :: cs =>
    (matchHere false lit (c :: cs) && (dotStar ((c :: cs).drop lit.length)).contains ']')
      || testBracketed lit cs

/-- `REMOTE_REGEXP.test(out)`, for `/RemoteWebDriver instances should connect to: (.*)/`. -/
def REMOTE_REGEXP_test (out : String) : Bool :=
  (search false "RemoteWebDriver instances should connect to: ".data out.data).isSome

/-- `REMOTE_REGEXP.exec(out)[1]`: the capture group of the leftmost match. -/
def REMOTE_REGEXP_exec (out : String) : Option String :=
  (search false "RemoteWebDriver instances should connect to: ".data out.data).map
    (fun rest => String.mk (dotStar rest))

/-- `STARTED_REGEXP.test(out)`, for `/Started org\.openqa\.jetty\.jetty\.Server/`. -/
def STARTED_REGEXP_test (out : String) : Bool :=
  (search false "Started org.openqa.jetty.jetty.Server".data out.data).isSome

/-- `RUNNING_REGEXP.test(out)`, for `/Selenium is already running/`. -/
def RUNNING_REGEXP_test (out : String) : Bool :=
  (search false "Selenium is already running".data out.data).isSome

/-- `FAILURE_REGEXP.test(out)`, for `/Failed to start/`. -/
def FAILURE_REGEXP_test (out : String) : Bool :=
  (search false "Failed to start".data out.data).isSome

/-- `SESSION_DELETE_REGEXP.test(out)`, for `/Executing: \[delete session: (.*)\]/`. -/
def SESSION_DELETE_REGEXP_test (out : String) : Bool :=
  testBracketed "Executing: [delete session: ".data out.data

/-- `SESSION_NEW_REGEXP.test(out)`, for `/Executing: \[new session: (.*)\]/`. -/
def SESSION_NEW_REGEXP_test (out : String) : Bool :=
  testBracketed "Executing: [new session: ".data out.data

/-- `EXCEPTION_REGEXP.test(out)`, for `/Exception thrown(.*)/m`. -/
def EXCEPTION_REGEXP_test (out : String) : Bool :=
  (search false "Exception thrown".data out.data).isSome

/-- `FATAL_REGEXP.test(out)`, for `/Fatal error/`. -/
def FATAL_REGEXP_test (out : String) : Bool :=
  (search false "Fatal error".data out.data).isSome

/-- `SHUTDOWN_OK_REGEXP.test(response)`, for `/OKOK/i`. -/
def SHUTDOWN_OK_REGEXP_test (response : String) : Bool :=
  (search true "OKOK".data response.data).isSome

/-- The constant `DEFAULT_CMD`. -/
def DEFAULT_CMD : String := "webdriver-manager start"

/-- The constant `DEFAULT_INSTANCE`. -/
def DEFAULT_INSTANCE : String := "http://localhost:4444"

/-! ## String helpers used by `data` -/

/-- `String.prototype.trim`. -/
def trim (l : List Char) : List Char :=
  ((l.dropWhile (fun c => isWhiteSpace c || isLineTerminator c)).reverse.dropWhile
    (fun c => isWhiteSpace c || isLineTerminator c)).reverse

/-- `x.replace(/lit/, '')` for a literal pattern without the `g` flag: the leftmost
occurrence of `lit` is removed, wherever it is. -/
def removeFirst (lit : List Char) : List Char → List Char
  | [] => []
  | c :: cs =>
    if matchHere false lit (c :: cs) then (c :: cs).drop lit.length
    else c :: removeFirst lit cs

/-! ## Instance state, effects, events -/

/-- The `options` argument of `Webdriver`: what `this.options({ path: '', command:
DEFAULT_CMD })` returns for the target. -/
structure Options where
  /-- `options.path` -/
  path : String
  /-- `options.command` -/
  command : String
  deriving DecidableEq, Repr

/-- The `context` argument of `Webdriver`: the task object, `this` of the function given to
`grunt.registerMultiTask`.  The source only hands it on and calls its `async()`; it is
known here by its `nameArgs`. -/
structure Context where
  /-- `this.nameArgs` -/
  nameArgs : String
  deriving DecidableEq, Repr

/-- The functions that are handed to `stop` as its `callback`. -/
inductive StopCallback
  /-- the default built in `exit`: `grunt.fatal(stackTrace || 'Selenium terminated unexpectedly')` -/
  | fatalDefault
  /-- the constant `noop` -/
  | noop
  /-- the function built in the `RUNNING_REGEXP` branch of `data` -/
  | retry
  deriving DecidableEq, Repr

/-- The value `exit` receives as `proc`. -/
inductive Proc
  /-- the child process `selenium` (it has `stdout` and `stderr`) -/
  | selenium
  /-- the exit code an `exit` / `close` event passes to its listener -/
  | code (n : Int)
  deriving DecidableEq, Repr

/-- The two output channels. -/
inductive Channel
  | stdout
  | stderr
  deriving DecidableEq, Repr

/-- Calls that leave the instance. -/
inductive Effect
  /-- `done()`, the ready signal obtained from `context.async()` -/
  | done
  /-- `grunt.fatal(msg)` -/
  | fatal (msg : String)
  /-- `http.get(url, ...)`; `req` names the request -/
  | httpGet (req : Nat) (url : String)
  /-- `new Webdriver(context, options, restarted)` -/
  | newWebdriver (context : Context) (options : Options) (restarted : Bool)
  /-- `setTimeout(destroy, ms)`; `timer` names the handle returned -/
  | setTimeout (timer : Nat) (ms : Nat)
  /-- `clearTimeout(timer)` -/
  | clearTimeout (timer : Nat)
  /-- an exception nobody catches -/
  | uncaught
  deriving DecidableEq, Repr

/-- The closure variables of one `Webdriver` call, with the timers and shutdown requests it
has outstanding and the state of the two output streams of its child process. -/
structure Instance where
  /-- `context` -/
  context : Context
  /-- `options` -/
  options : Options
  /-- `restarted === true` -/
  restarted : Bool
  /-- `server` -/
  server : String
  /-- `sessions` -/
  sessions : Int
  /-- `status[0]` -/
  stopping : Bool
  /-- `status[1]` -/
  stopped : Bool
  /-- `stackTrace` (`none` is `undefined`) -/
  stackTrace : Option String
  /-- `failureTimeout` (`none` is `undefined`) -/
  failureTimeout : Option Nat
  /-- timers armed by `setTimeout` that have neither fired nor been cleared -/
  timers : List Nat
  /-- shutdown requests whose response has not ended, each with the `callback` of its `stop` -/
  requests : List (Nat × Option StopCallback)
  /-- next timer handle -/
  nextTimer : Nat
  /-- next request name -/
  nextRequest : Nat
  /-- `selenium.stdout.destroy()` and `selenium.stderr.destroy()` have been called (`exit`
  calls both or neither) -/
  destroyed : Bool
  deriving DecidableEq, Repr

/-- What the environment delivers to an instance. -/
inductive Event
  /-- a `data` event of `selenium.stdout` or `selenium.stderr` -/
  | data (ch : Channel) (out : String)
  /-- the timer `timer` runs out -/
  | timeout (timer : Nat)
  /-- the response of request `req` ends, `body` being all the data it delivered -/
  | responseEnd (req : Nat) (body : String)
  /-- request `req` emits `error` -/
  | requestError (req : Nat)
  /-- the `exit` or `close` event of the child process -/
  | processExit (code : Int)
  deriving DecidableEq, Repr

/-- The state in which `new Webdriver(context, options, restarted)` leaves its variables
when `start()` has returned. -/
def Webdriver (context : Context) (options : Options) (restarted : Bool) : Instance where
  context := context
  options := options
  restarted := restarted
  server := DEFAULT_INSTANCE
  sessions := 0
  stopping := false
  stopped := false
  stackTrace := none
  failureTimeout := none
  timers := []
  requests := []
  nextTimer := 0
  nextRequest := 0
  destroyed := false

/-! ## The functions of the source -/

/-- Node's `http.get`, as far as `stop` depends on it: `throws url` tells whether the call
`http.get(url, callback)` throws before any request exists, because Node rejects the URL
(a protocol other than `http:`, a string that is no URL).  `http` is not part of the
repository, so this is a parameter of the embedding: what is proved below holds for every
choice of it. -/
class HttpGet where
  /-- `http.get(url, ...)` throws -/
  throws : String → Bool

section Source

variable [HttpGet]

/-- `started(callback)`; `callback` is the effect of calling it, `none` when it is falsy. -/
def started (callback : Option Effect) (s : Instance) : Instance × List Effect :=
  ({ s with stopped := false }, callback.toList)

/-- `stop(callback)`, up to the return of `http.get`.  The source sets `status[0] = true`
and then calls `http.get` outside any `try`: when the call throws, the flag stays set, no
request exists and the exception leaves the handler uncaught. -/
def stop (callback : Option StopCallback) (s : Instance) : Instance × List Effect :=
  if s.stopping || s.stopped then (s, [])
  else if HttpGet.throws (s.server ++ "/selenium-server/driver/?cmd=shutDownSeleniumServer") then
    ({ s with stopping := true }, [Effect.uncaught])
  else
    ({ s with
        stopping := true
        requests := s.requests ++ [(s.nextRequest, callback)]
        nextRequest := s.nextRequest + 1 },
     [Effect.httpGet s.nextRequest
        (s.server ++ "/selenium-server/driver/?cmd=shutDownSeleniumServer")])

/-- The function `exit(proc)` returns, applied to `callback` (`none` is `undefined`). -/
def exit (proc : Proc) (callback : Option StopCallback) (s : Instance) :
    Instance × List Effect :=
  if s.stopping || s.stopped then (s, [])
  else
    match proc with
    | Proc.code _ => (s, [Effect.uncaught])
    | Proc.selenium =>
      stop (some (callback.getD StopCallback.fatalDefault))
        { s with destroyed := true }

/-- The variable `destroy`, assigned `exit(selenium)` in `start`. -/
def destroy (callback : Option StopCallback) (s : Instance) : Instance × List Effect :=
  exit Proc.selenium callback s

/-- `stackTrace || 'Selenium terminated unexpectedly'`. -/
def fatalMessage (s : Instance) : String :=
  match s.stackTrace with
  | some t => if t = "" then "Selenium terminated unexpectedly" else t
  | none => "Selenium terminated unexpectedly"

/-- Calling `callback(success)` for each of the three callbacks. -/
def invoke (callback : StopCallback) (success : Bool) (s : Instance) :
    Instance × List Effect :=
  match callback with
  | StopCallback.fatalDefault => (s, [Effect.fatal (fatalMessage s)])
  | StopCallback.noop => (s, [])
  | StopCallback.retry =>
    if success then (s, [Effect.newWebdriver s.context s.options true]) else destroy none s

/-- The `end` handler of the response inside `stop(callback)`; `response` is the
accumulated body. -/
def stopOnEnd (callback : Option StopCallback) (response : String) (s : Instance) :
    Instance × List Effect :=
  match callback with
  | none => ({ s with stopping := false }, [])
  | some cb =>
    invoke cb (SHUTDOWN_OK_REGEXP_test response)
      { s with stopping := false, stopped := SHUTDOWN_OK_REGEXP_test response }

/-- `data(out)`. -/
def data (out : String) (s : Instance) : Instance × List Effect :=
  if REMOTE_REGEXP_test out then
    match REMOTE_REGEXP_exec out with
    | some r =>
      if (trim r.data).length > 0 then
        ({ s with server := String.mk (removeFirst "/wd/hub".data r.data) }, [])
      else (s, [])
    | none => (s, [])
  else if STARTED_REGEXP_test out then
    started (some Effect.done) s
  else if RUNNING_REGEXP_test out then
    match s.failureTimeout with
    | some t =>
      let r := stop (some StopCallback.retry) { s with timers := s.timers.erase t }
      (r.1, Effect.clearTimeout t :: r.2)
    | none => stop (some StopCallback.retry) s
  else if FAILURE_REGEXP_test out then
    ({ s with
        failureTimeout := some s.nextTimer
        timers := s.timers ++ [s.nextTimer]
        nextTimer := s.nextTimer + 1 },
     [Effect.setTimeout s.nextTimer 500])
  else if EXCEPTION_REGEXP_test out then
    destroy none { s with stackTrace := some out }
  else if FATAL_REGEXP_test out then
    destroy none s
  else if SESSION_NEW_REGEXP_test out then
    ({ s with sessions := s.sessions + 1 }, [])
  else if SESSION_DELETE_REGEXP_test out then
    if s.sessions - 1 ≤ 0 then destroy (some StopCallback.noop) { s with sessions := s.sessions - 1 }
    else ({ s with sessions := s.sessions - 1 }, [])
  else (s, [])

/-! ## Event delivery -/

/-- The listener `start` registers for `exit` and for `close`: it is `exit` itself, so the
event calls `exit(code, signal)`, which builds a function and returns it; the emitter drops
the returned value. -/
def onProcessExit (code : Int) (s : Instance) : Instance × List Effect :=
  let _returned := exit (Proc.code code)
  (s, [])

/-- One event, handled by the listener registered for it.  Both channels have the listener
`data`; a destroyed stream emits no further `data`, so a text that arrives after
`destroy` ran is not handled. -/
def step (s : Instance) : Event → Instance × List Effect
  | Event.data _ out => if s.destroyed then (s, []) else data out s
  | Event.timeout t =>
    if t ∈ s.timers then destroy none { s with timers := s.timers.erase t } else (s, [])
  | Event.responseEnd req body =>
    match s.requests.lookup req with
    | some cb => stopOnEnd cb body { s with requests := s.requests.filter (fun p => p.1 != req) }
    | none => (s, [])
  | Event.requestError req =>
    match s.requests.lookup req with
    | some _ =>
      ({ s with requests := s.requests.filter (fun p => p.1 != req) }, [Effect.uncaught])
    | none => (s, [])
  | Event.processExit code => onProcessExit code s

/-- A sequence of events, with all the effects it causes, in order. -/
def run (s : Instance) : List Event → Instance × List Effect
  | [] => (s, [])
  | e :: es => ((run (step s e).1 es).1, (step s e).2 ++ (run (step s e).1 es).2)

/-! ## Vocabulary of the specification -/

/-- The eight branches of `data`. -/
inductive Branch
  | remote
  | started
  | running
  | failure
  | exception
  | fatal
  | sessionNew
  | sessionDelete
  deriving DecidableEq, Repr

/-- The pattern of a branch occurs in the text. -/
def Branch.occurs : Branch → String → Bool
  | Branch.remote, out => REMOTE_REGEXP_test out
  | Branch.started, out => STARTED_REGEXP_test out
  | Branch.running, out => RUNNING_REGEXP_test out
  | Branch.failure, out => FAILURE_REGEXP_test out
  | Branch.exception, out => EXCEPTION_REGEXP_test out
  | Branch.fatal, out => FATAL_REGEXP_test out
  | Branch.sessionNew, out => SESSION_NEW_REGEXP_test out
  | Branch.sessionDelete, out => SESSION_DELETE_REGEXP_test out

/-- The order in which the specification lists the patterns. -/
def branchOrder : List Branch :=
  [Branch.remote, Branch.started, Branch.running, Branch.failure, Branch.exception,
   Branch.fatal, Branch.sessionNew, Branch.sessionDelete]

/-- The classifier as the specification words it: the first branch, in the order above,
whose pattern occurs in the text; none when no pattern occurs. -/
def firstMatch (out : String) : Option Branch :=
  branchOrder.find? (fun b => b.occurs out)

/-- What each branch of `data` does, taken on its own. -/
def Branch.body : Branch → String → Instance → Instance × List Effect
  | Branch.remote, out, s =>
    match REMOTE_REGEXP_exec out with
    | some r =>
      if (trim r.data).length > 0 then
        ({ s with server := String.mk (removeFirst "/wd/hub".data r.data) }, [])
      else (s, [])
    | none => (s, [])
  | Branch.started, _, s => ProtractorWebdriver.started (some Effect.done) s
  | Branch.running, _, s =>
    match s.failureTimeout with
    | some t =>
      let r := stop (some StopCallback.retry) { s with timers := s.timers.erase t }
      (r.1, Effect.clearTimeout t :: r.2)
    | none => stop (some StopCallback.retry) s
  | Branch.failure, _, s =>
    ({ s with
        failureTimeout := some s.nextTimer
        timers := s.timers ++ [s.nextTimer]
        nextTimer := s.nextTimer + 1 },
     [Effect.setTimeout s.nextTimer 500])
  | Branch.exception, out, s => destroy none { s with stackTrace := some out }
  | Branch.fatal, _, s => destroy none s
  | Branch.sessionNew, _, s => ({ s with sessions := s.sessions + 1 }, [])
  | Branch.sessionDelete, _, s =>
    if s.sessions - 1 ≤ 0 then destroy (some StopCallback.noop) { s with sessions := s.sessions - 1 }
    else ({ s with sessions := s.sessions - 1 }, [])

/-- The effect is a terminal callback: the ready signal or the fatal callback. -/
def isTerminal : Effect → Bool
  | Effect.done => true
  | Effect.fatal _ => true
  | _ => false

/-- The effect is a call of `done`. -/
def isDone : Effect → Bool
  | Effect.done => true
  | _ => false

/-- The effect is a call of `grunt.fatal`. -/
def isFatal : Effect → Bool
  | Effect.fatal _ => true
  | _ => false

/-- The effect is a shutdown request. -/
def isHttpGet : Effect → Bool
  | Effect.httpGet _ _ => true
  | _ => false

/-- The effect is the creation of a new instance. -/
def isNewWebdriver : Effect → Bool
  | Effect.newWebdriver _ _ _ => true
  | _ => false

/-- The event is an output text that takes the given branch when it is handled. -/
def isText (b : Branch) : Event → Bool
  | Event.data _ out => firstMatch out == some b
  | _ => false

/-- The event is the end of a shutdown response. -/
def isResponse : Event → Bool
  | Event.responseEnd _ _ => true
  | _ => false

/-- The event is not a shutdown response whose body fails the `OKOK` test. -/
def responseOk : Event → Bool
  | Event.responseEnd _ body => SHUTDOWN_OK_REGEXP_test body
  | _ => true

/-- The event is the firing of a timer. -/
def isTimeout : Event → Bool
  | Event.timeout _ => true
  | _ => false

/-- A state an instance can be in: the one `new Webdriver` sets up, after any events. -/
def Reachable (s : Instance) : Prop :=
  ∃ context options restarted history, s = (run (Webdriver context options restarted) history).1

/-- The list `lit` occurs in `l` as a contiguous piece. -/
def Occurs (lit l : List Char) : Prop :=
  ∃ pre post, l = pre ++ lit ++ post

/-- The text contains `OKOK` in any mix of upper and lower case. -/
def ContainsOKOK (body : String) : Prop :=
  ∃ pre post a b c d, body.data = pre ++ [a, b, c, d] ++ post ∧
    (a = 'O' ∨ a = 'o') ∧ (b = 'K' ∨ b = 'k') ∧ (c = 'O' ∨ c = 'o') ∧ (d = 'K' ∨ d = 'k')

/-- The text announces the address `a`, in the words of the specification: `a` is the rest
of the line after the leftmost `RemoteWebDriver instances should connect to: ` of the text.
Stated on the characters of the text, without the functions of the embedding. -/
def Announces (out a : String) : Prop :=
  ∃ pre rest,
    out.data = pre ++ "RemoteWebDriver instances should connect to: ".data ++ a.data ++ rest ∧
    (∀ pre' rest',
      out.data = pre' ++ "RemoteWebDriver instances should connect to: ".data ++ rest' →
        pre.length ≤ pre'.length) ∧
    (∀ c ∈ a.data, isLineTerminator c = false) ∧
    (rest = [] ∨ ∃ c tl, rest = c :: tl ∧ isLineTerminator c = true)

/-- The address is blank: it has nothing but white space. -/
def Blank (a : String) : Prop :=
  ∀ c ∈ a.data, isWhiteSpace c = true ∨ isLineTerminator c = true

/-- The string `b` is `a` without its leftmost `lit`: `a` itself when `lit` does not occur
in it. -/
def DropsLeftmost (lit a b : String) : Prop :=
  (¬ Occurs lit.data a.data ∧ b = a) ∨
  ∃ pre post, a.data = pre ++ lit.data ++ post ∧ b.data = pre ++ post ∧
    ∀ pre' post', a.data = pre' ++ lit.data ++ post' → pre.length ≤ pre'.length

/-- The shutdown URL for an endpoint. -/
def shutdownUrl (server : String) : String :=
  server ++ "/selenium-server/driver/?cmd=shutDownSeleniumServer"

/-- Shutdown requests are outstanding only while the stopping flag is set, and never more
than one. -/
def WellFormed (s : Instance) : Prop :=
  (s.stopping = false → s.requests = []) ∧ s.requests.length ≤ 1

/-- The effect arms or clears a timer. -/
def isTimerEffect : Effect → Bool
  | Effect.setTimeout _ _ => true
  | Effect.clearTimeout _ => true
  | _ => false

/-- Effects a predicate `p` never counts: every effect but the callbacks and the new
instance. -/
def Blind (p : Effect → Bool) : Prop :=
  (∀ n u, p (Effect.httpGet n u) = false) ∧ (∀ t m, p (Effect.setTimeout t m) = false) ∧
  (∀ t, p (Effect.clearTimeout t) = false) ∧ p Effect.uncaught = false

/-- Predicates that do not count the timer effects. -/
def TimerBlind (p : Effect → Bool) : Prop :=
  (∀ t m, p (Effect.setTimeout t m) = false) ∧ (∀ t, p (Effect.clearTimeout t) = false)

/-- `EXCEPTION_REGEXP.exec(out)[1]`, the capture group of `/Exception thrown(.*)/m`: what
follows the leftmost marker, up to the end of its line.  The source never reads it. -/
def EXCEPTION_REGEXP_exec (out : String) : Option String :=
  (search false "Exception thrown".data out.data).map (fun rest => String.mk (dotStar rest))

/-- The texts an instance handles, in order: those of the `data` events that arrive while
its streams are live. -/
def handledTexts (s : Instance) : List Event → List String
  | [] => []
  | Event.data ch out :: es =>
    if s.destroyed then handledTexts (step s (Event.data ch out)).1 es
    else out :: handledTexts (step s (Event.data ch out)).1 es
  | Event.timeout t :: es => handledTexts (step s (Event.timeout t)).1 es
  | Event.responseEnd req body :: es => handledTexts (step s (Event.responseEnd req body)).1 es
  | Event.requestError req :: es => handledTexts (step s (Event.requestError req)).1 es
  | Event.processExit code :: es => handledTexts (step s (Event.processExit code)).1 es

/-- What `data` leaves in `server`, given what it finds there: the first branch of `data`
(lines 130-134) read on its own.  A device of the proofs (`data_server`). -/
def serverAfter (endpoint out : String) : String :=
  if firstMatch out = some Branch.remote then
    match REMOTE_REGEXP_exec out with
    | some a =>
      if (trim a.data).length > 0 then String.mk (removeFirst "/wd/hub".data a.data)
      else endpoint
    | none => endpoint
  else endpoint

/-- The trace after one more handled text: an exception-marker text replaces it. -/
def capture (trace : Option String) (out : String) : Option String :=
  if firstMatch out = some Branch.exception then some out else trace

/-- The most recent exception-marker text among the texts, if there is one. -/
def lastException (texts : List String) : Option String :=
  texts.foldl capture none

end Source

/-! ## A concrete setting, for evaluating runs -/

/-- A stand-in for Node's `http.get` where a concrete run is evaluated: it throws exactly
for a URL that does not begin with `http://` (Node: `Protocol "https:" not supported.
Expected "http:"`, or an invalid URL).  It is only ever consulted for the shutdown URLs of
the endpoints `http://localhost:4444`, `http://10.0.0.5:4444` and
`http://10.0.0.5:4444/status`, which Node takes, and of `https://127.0.0.1:4444`, for which
Node throws. -/
instance nodeHttpGet : HttpGet where
  throws url := !matchHere false "http://".data url.data

/-- The options of a target that sets none: `{ path: '', command: DEFAULT_CMD }`. -/
def defaultOptions : Options := { path := "", command := DEFAULT_CMD }

/-- A task context: the target `default` of `protractor_webdriver`. -/
def defaultTarget : Context := { nameArgs := "protractor_webdriver:default" }

/-- The instance the task function of `grunt.registerMultiTask('protractor_webdriver', ...)`
creates for that target: `new Webdriver(this, this.options({ path: '', command:
DEFAULT_CMD }))`, with `restarted` undefined. -/
def protractor_webdriver : Instance := Webdriver defaultTarget defaultOptions false

/-! ## Regular expressions: what the matchers compute -/

theorem firstMatch_cases (out : String) :
    firstMatch out =
      if REMOTE_REGEXP_test out then some Branch.remote
      else if STARTED_REGEXP_test out then some Branch.started
      else if RUNNING_REGEXP_test out then some Branch.running
      else if FAILURE_REGEXP_test out then some Branch.failure
      else if EXCEPTION_REGEXP_test out then some Branch.exception
      else if FATAL_REGEXP_test out then some Branch.fatal
      else if SESSION_NEW_REGEXP_test out then some Branch.sessionNew
      else if SESSION_DELETE_REGEXP_test out then some Branch.sessionDelete
      else none := by
  simp only [firstMatch, branchOrder, List.find?, Branch.occurs]
  cases REMOTE_REGEXP_test out <;> cases STARTED_REGEXP_test out <;>
  cases RUNNING_REGEXP_test out <;> cases FAILURE_REGEXP_test out <;>
  cases EXCEPTION_REGEXP_test out <;> cases FATAL_REGEXP_test out <;>
  cases SESSION_NEW_REGEXP_test out <;> cases SESSION_DELETE_REGEXP_test out <;> rfl

section

variable [HttpGet]

theorem data_eq_body (out : String) (s : Instance) :
    data out s =
      match firstMatch out with
      | some b => b.body out s
      | none => (s, []) := by
  rw [firstMatch_cases]
  unfold data
  cases REMOTE_REGEXP_test out <;> cases STARTED_REGEXP_test out <;>
  cases RUNNING_REGEXP_test out <;> cases FAILURE_REGEXP_test out <;>
  cases EXCEPTION_REGEXP_test out <;> cases FATAL_REGEXP_test out <;>
  cases SESSION_NEW_REGEXP_test out <;> cases SESSION_DELETE_REGEXP_test out <;> rfl

end

theorem canon_O (a : Char) : (canonicalize 'O' == canonicalize a) = true ↔ (a = 'O' ∨ a = 'o') := by
  have h0 : canonicalize 'O' = 'O' := by decide
  rw [h0, beq_iff_eq]
  have ha : a = Char.ofNat a.toNat := (Char.ofNat_toNat a).symm
  unfold canonicalize
  by_cases h : 97 ≤ a.toNat ∧ a.toNat ≤ 122
  · rw [if_pos h]
    obtain ⟨h1, h2⟩ := h
    generalize a.toNat = n at ha h1 h2
    subst ha
    interval_cases n <;> decide
  · rw [if_neg h]
    constructor
    · intro e; exact Or.inl e.symm
    · rintro (e | e)
      · exact e.symm
      · exfalso; apply h; subst e; decide

theorem canon_K (a : Char) : (canonicalize 'K' == canonicalize a) = true ↔ (a = 'K' ∨ a = 'k') := by
  have h0 : canonicalize 'K' = 'K' := by decide
  rw [h0, beq_iff_eq]
  have ha : a = Char.ofNat a.toNat := (Char.ofNat_toNat a).symm
  unfold canonicalize
  by_cases h : 97 ≤ a.toNat ∧ a.toNat ≤ 122
  · rw [if_pos h]
    obtain ⟨h1, h2⟩ := h
    generalize a.toNat = n at ha h1 h2
    subst ha
    interval_cases n <;> decide
  · rw [if_neg h]
    constructor
    · intro e; exact Or.inl e.symm
    · rintro (e | e)
      · exact e.symm
      · exfalso; apply h; subst e; decide

theorem search_isSome_iff (ic : Bool) (lit l : List Char) :
    (search ic lit l).isSome = true ↔ ∃ pre post, l = pre ++ post ∧ matchHere ic lit post = true := by
  induction l with
  | nil =>
    unfold search
    constructor
    · intro h
      refine ⟨[], [], rfl, ?_⟩
      by_contra hc
      simp [hc] at h
    · rintro ⟨pre, post, h1, h2⟩
      have hp : post = [] := by
        cases pre with
        | nil => simpa using h1.symm
        | cons _ _ => simp at h1
      subst hp
      simp [h2]
  | cons c cs ih =>
    unfold search
    by_cases hm : matchHere ic lit (c :: cs) = true
    · rw [if_pos hm]
      simp only [Option.isSome_some, true_iff]
      exact ⟨[], c :: cs, rfl, hm⟩
    · rw [if_neg hm, ih]
      constructor
      · rintro ⟨pre, post, h1, h2⟩
        exact ⟨c :: pre, post, by simp [h1], h2⟩
      · rintro ⟨pre, post, h1, h2⟩
        cases pre with
        | nil =>
          simp only [List.nil_append] at h1
          subst h1
          exact absurd h2 hm
        | cons p ps =>
          simp only [List.cons_append, List.cons.injEq] at h1
          exact ⟨ps, post, h1.2, h2⟩

theorem matchHere_exact_iff (lit l : List Char) :
    matchHere false lit l = true ↔ ∃ rest, l = lit ++ rest := by
  induction lit generalizing l with
  | nil => simp [matchHere]
  | cons p ps ih =>
    cases l with
    | nil => simp [matchHere]
    | cons c cs =>
      simp only [matchHere, charMatches, Bool.false_eq_true, if_false, Bool.and_eq_true,
        beq_iff_eq, ih, List.cons_append, List.cons.injEq]
      constructor
      · rintro ⟨h1, rest, h2⟩
        exact ⟨rest, h1.symm, h2⟩
      · rintro ⟨rest, h1, h2⟩
        exact ⟨h1.symm, rest, h2⟩

theorem search_exact_iff (lit l : List Char) :
    (search false lit l).isSome = true ↔ Occurs lit l := by
  rw [search_isSome_iff]
  unfold Occurs
  constructor
  · rintro ⟨pre, post, h1, h2⟩
    obtain ⟨rest, h3⟩ := (matchHere_exact_iff lit post).1 h2
    exact ⟨pre, rest, by rw [h1, h3, List.append_assoc]⟩
  · rintro ⟨pre, post, h⟩
    exact ⟨pre, lit ++ post, by rw [h, List.append_assoc], (matchHere_exact_iff lit _).2 ⟨post, rfl⟩⟩

theorem matchHere_OKOK (l : List Char) :
    matchHere true "OKOK".data l = true ↔
      ∃ a b c d rest, l = a :: b :: c :: d :: rest ∧
        (a = 'O' ∨ a = 'o') ∧ (b = 'K' ∨ b = 'k') ∧ (c = 'O' ∨ c = 'o') ∧ (d = 'K' ∨ d = 'k') := by
  have hlit : "OKOK".data = ['O', 'K', 'O', 'K'] := rfl
  rw [hlit]
  constructor
  · intro h
    match l, h with
    | a :: b :: c :: d :: rest, h =>
      simp only [matchHere, charMatches, if_true, Bool.and_eq_true, canon_O, canon_K] at h
      exact ⟨a, b, c, d, rest, rfl, h.1, h.2.1, h.2.2.1, h.2.2.2.1⟩
    | [], h => simp [matchHere] at h
    | [_], h => simp [matchHere] at h
    | [_, _], h => simp [matchHere] at h
    | [_, _, _], h => simp [matchHere] at h
  · rintro ⟨a, b, c, d, rest, rfl, h1, h2, h3, h4⟩
    simp only [matchHere, charMatches, if_true, Bool.and_eq_true, canon_O, canon_K]
    exact ⟨h1, h2, h3, h4, trivial⟩

theorem SHUTDOWN_OK_iff (body : String) :
    SHUTDOWN_OK_REGEXP_test body = true ↔ ContainsOKOK body := by
  unfold SHUTDOWN_OK_REGEXP_test ContainsOKOK
  rw [search_isSome_iff]
  constructor
  · rintro ⟨pre, post, h1, h2⟩
    obtain ⟨a, b, c, d, rest, h3, h4⟩ := (matchHere_OKOK post).1 h2
    exact ⟨pre, rest, a, b, c, d, by rw [h1, h3]; simp, h4⟩
  · rintro ⟨pre, post, a, b, c, d, h1, h4⟩
    exact ⟨pre, a :: b :: c :: d :: post, by rw [h1]; simp,
      (matchHere_OKOK _).2 ⟨a, b, c, d, post, rfl, h4⟩⟩

theorem matchHere_wdhub_append (x : List Char) :
    matchHere false "/wd/hub".data (x ++ "/wd/hub".data) = true →
      x = [] ∨ matchHere false "/wd/hub".data x = true := by
  have hlit : "/wd/hub".data = ['/', 'w', 'd', '/', 'h', 'u', 'b'] := rfl
  rw [hlit]
  intro h
  match x, h with
  | [], _ => exact Or.inl rfl
  | [_], h => simp [matchHere, charMatches] at h
  | [_, _], h => simp [matchHere, charMatches] at h
  | [_, _, _], h => simp [matchHere, charMatches] at h
  | [_, _, _, _], h => simp [matchHere, charMatches] at h
  | [_, _, _, _, _], h => simp [matchHere, charMatches] at h
  | [_, _, _, _, _, _], h => simp [matchHere, charMatches] at h
  | _ :: _ :: _ :: _ :: _ :: _ :: _ :: _, h =>
    right
    simpa [matchHere, charMatches] using h

theorem removeFirst_of_not_occurs (lit l : List Char) (h : ¬ Occurs lit l) :
    removeFirst lit l = l := by
  induction l with
  | nil => rfl
  | cons c cs ih =>
    unfold removeFirst
    have hm : ¬ matchHere false lit (c :: cs) = true := by
      intro hm
      obtain ⟨rest, hr⟩ := (matchHere_exact_iff lit _).1 hm
      exact h ⟨[], rest, by simpa using hr⟩
    rw [if_neg hm, ih]
    rintro ⟨pre, post, hp⟩
    exact h ⟨c :: pre, post, by simp [hp]⟩

theorem removeFirst_wdhub_suffix (b : List Char) (h : ¬ Occurs "/wd/hub".data b) :
    removeFirst "/wd/hub".data (b ++ "/wd/hub".data) = b := by
  induction b with
  | nil => decide
  | cons c cs ih =>
    have hm : ¬ matchHere false "/wd/hub".data (c :: cs) = true := by
      intro hm
      obtain ⟨rest, hr⟩ := (matchHere_exact_iff _ _).1 hm
      exact h ⟨[], rest, by simpa using hr⟩
    have hm2 : ¬ matchHere false "/wd/hub".data (c :: cs ++ "/wd/hub".data) = true := by
      intro hc
      rcases matchHere_wdhub_append (c :: cs) hc with h1 | h1
      · simp at h1
      · exact hm h1
    have hcs : ¬ Occurs "/wd/hub".data cs := by
      rintro ⟨pre, post, hp⟩
      exact h ⟨c :: pre, post, by simp [hp]⟩
    rw [List.cons_append]
    unfold removeFirst
    rw [← List.cons_append, if_neg hm2, ih hcs]

theorem find_takeWhile (p : Branch → Bool) (l : List Branch) (b : Branch)
    (h : l.find? p = some b) :
    p b = true ∧ ∀ b' ∈ l.takeWhile (fun x => x != b), p b' = false := by
  induction l with
  | nil => simp at h
  | cons x xs ih =>
    rw [List.find?_cons] at h
    cases hx : p x with
    | true =>
      rw [hx] at h
      simp only [Option.some.injEq] at h
      subst h
      simp [hx, List.takeWhile]
    | false =>
      rw [hx] at h
      obtain ⟨h1, h2⟩ := ih h
      refine ⟨h1, ?_⟩
      intro b' hb'
      rw [List.takeWhile_cons] at hb'
      by_cases hxb : (x != b) = true
      · rw [if_pos hxb] at hb'
        rcases List.mem_cons.1 hb' with e | e
        · rw [e]; exact hx
        · exact h2 b' e
      · rw [if_neg hxb] at hb'
        simp at hb'

/-! ## The state machine: bookkeeping lemmas -/

section

variable [HttpGet]

theorem stop_idle (cb : Option StopCallback) (s : Instance)
    (h : s.stopping = true ∨ s.stopped = true) : stop cb s = (s, []) := by
  unfold stop
  rcases h with h | h <;> simp [h]

theorem stop_active (cb : Option StopCallback) (s : Instance)
    (h1 : s.stopping = false) (h2 : s.stopped = false)
    (ha : HttpGet.throws (shutdownUrl s.server) = false) :
    stop cb s =
      ({ s with
          stopping := true
          requests := s.requests ++ [(s.nextRequest, cb)]
          nextRequest := s.nextRequest + 1 },
       [Effect.httpGet s.nextRequest (shutdownUrl s.server)]) := by
  unfold shutdownUrl at ha
  unfold stop shutdownUrl
  simp [h1, h2, ha]

theorem stop_thrown (cb : Option StopCallback) (s : Instance)
    (h1 : s.stopping = false) (h2 : s.stopped = false)
    (ha : HttpGet.throws (shutdownUrl s.server) = true) :
    stop cb s = ({ s with stopping := true }, [Effect.uncaught]) := by
  unfold shutdownUrl at ha
  unfold stop
  simp [h1, h2, ha]

theorem destroy_idle (cb : Option StopCallback) (s : Instance)
    (h : s.stopping = true ∨ s.stopped = true) : destroy cb s = (s, []) := by
  unfold destroy exit
  rcases h with h | h <;> simp [h]

theorem destroy_active (cb : Option StopCallback) (s : Instance)
    (h1 : s.stopping = false) (h2 : s.stopped = false)
    (ha : HttpGet.throws (shutdownUrl s.server) = false) :
    destroy cb s =
      ({ s with
          destroyed := true
          stopping := true
          requests := s.requests ++ [(s.nextRequest, some (cb.getD StopCallback.fatalDefault))]
          nextRequest := s.nextRequest + 1 },
       [Effect.httpGet s.nextRequest (shutdownUrl s.server)]) := by
  unfold shutdownUrl at ha
  unfold destroy exit
  unfold stop shutdownUrl
  simp [h1, h2, ha]

theorem destroy_thrown (cb : Option StopCallback) (s : Instance)
    (h1 : s.stopping = false) (h2 : s.stopped = false)
    (ha : HttpGet.throws (shutdownUrl s.server) = true) :
    destroy cb s = ({ s with destroyed := true, stopping := true }, [Effect.uncaught]) := by
  unfold shutdownUrl at ha
  unfold destroy exit
  unfold stop
  simp [h1, h2, ha]

theorem stop_cases (cb : Option StopCallback) (s : Instance) :
    ((s.stopping = true ∨ s.stopped = true) ∧ stop cb s = (s, [])) ∨
    (s.stopping = false ∧ s.stopped = false ∧
      HttpGet.throws (shutdownUrl s.server) = true ∧
      stop cb s = ({ s with stopping := true }, [Effect.uncaught])) ∨
    (s.stopping = false ∧ s.stopped = false ∧
      HttpGet.throws (shutdownUrl s.server) = false ∧
      stop cb s =
        ({ s with
            stopping := true
            requests := s.requests ++ [(s.nextRequest, cb)]
            nextRequest := s.nextRequest + 1 },
         [Effect.httpGet s.nextRequest (shutdownUrl s.server)])) := by
  by_cases hc : s.stopping = true ∨ s.stopped = true
  · exact Or.inl ⟨hc, stop_idle cb s hc⟩
  · simp only [not_or, Bool.not_eq_true] at hc
    cases ha : HttpGet.throws (shutdownUrl s.server) with
    | true => exact Or.inr (Or.inl ⟨hc.1, hc.2, rfl, stop_thrown cb s hc.1 hc.2 ha⟩)
    | false => exact Or.inr (Or.inr ⟨hc.1, hc.2, rfl, stop_active cb s hc.1 hc.2 ha⟩)

theorem destroy_cases (cb : Option StopCallback) (s : Instance) :
    ((s.stopping = true ∨ s.stopped = true) ∧ destroy cb s = (s, [])) ∨
    (s.stopping = false ∧ s.stopped = false ∧
      HttpGet.throws (shutdownUrl s.server) = true ∧
      destroy cb s = ({ s with destroyed := true, stopping := true }, [Effect.uncaught])) ∨
    (s.stopping = false ∧ s.stopped = false ∧
      HttpGet.throws (shutdownUrl s.server) = false ∧
      destroy cb s =
        ({ s with
            destroyed := true
            stopping := true
            requests :=
              s.requests ++ [(s.nextRequest, some (cb.getD StopCallback.fatalDefault))]
            nextRequest := s.nextRequest + 1 },
         [Effect.httpGet s.nextRequest (shutdownUrl s.server)])) := by
  by_cases hc : s.stopping = true ∨ s.stopped = true
  · exact Or.inl ⟨hc, destroy_idle cb s hc⟩
  · simp only [not_or, Bool.not_eq_true] at hc
    cases ha : HttpGet.throws (shutdownUrl s.server) with
    | true => exact Or.inr (Or.inl ⟨hc.1, hc.2, rfl, destroy_thrown cb s hc.1 hc.2 ha⟩)
    | false => exact Or.inr (Or.inr ⟨hc.1, hc.2, rfl, destroy_active cb s hc.1 hc.2 ha⟩)

theorem destroy_sets_destroyed (cb : Option StopCallback) (s : Instance)
    (h1 : s.stopping = false) (h2 : s.stopped = false) :
    (destroy cb s).1.destroyed = true := by
  rcases destroy_cases cb s with ⟨hc, -⟩ | ⟨-, -, -, h⟩ | ⟨-, -, -, h⟩
  · rcases hc with hc | hc
    · rw [h1] at hc; exact absurd hc (by simp)
    · rw [h2] at hc; exact absurd hc (by simp)
  · rw [h]
  · rw [h]

theorem run_nil (s : Instance) : run s [] = (s, []) := rfl

theorem run_cons (s : Instance) (e : Event) (es : List Event) :
    run s (e :: es) = ((run (step s e).1 es).1, (step s e).2 ++ (run (step s e).1 es).2) := rfl

theorem run_append (s : Instance) (a b : List Event) :
    run s (a ++ b) = ((run (run s a).1 b).1, (run s a).2 ++ (run (run s a).1 b).2) := by
  induction a generalizing s with
  | nil => simp [run_nil]
  | cons e es ih =>
    rw [List.cons_append, run_cons, run_cons, ih]
    simp [List.append_assoc]

end

theorem filter_lookup (l : List (Nat × Option StopCallback)) (req : Nat)
    (cb : Option StopCallback) (hl : l.length ≤ 1) (h : l.lookup req = some cb) :
    l.filter (fun p => p.1 != req) = [] ∧ l = [(req, cb)] := by
  match l, hl, h with
  | [], _, h => simp at h
  | [(a, b)], _, h =>
    simp only [List.lookup] at h
    by_cases hab : req = a
    · subst hab
      simp at h
      simp [h]
    · have : (req == a) = false := by simpa using hab
      simp [this] at h

section

variable [HttpGet]

theorem inv_destroy (cb : Option StopCallback) (s : Instance) (h : WellFormed s) :
    WellFormed (destroy cb s).1 := by
  by_cases h1 : s.stopping = true ∨ s.stopped = true
  · rw [destroy_idle _ _ h1]; exact h
  · simp only [not_or, Bool.not_eq_true] at h1
    have := h.1 h1.1
    cases ha : HttpGet.throws (shutdownUrl s.server) with
    | false =>
      rw [destroy_active _ _ h1.1 h1.2 ha]
      simp [WellFormed, this]
    | true =>
      rw [destroy_thrown _ _ h1.1 h1.2 ha]
      simp [WellFormed, this]

theorem inv_stop (cb : Option StopCallback) (s : Instance) (h : WellFormed s) :
    WellFormed (stop cb s).1 := by
  by_cases h1 : s.stopping = true ∨ s.stopped = true
  · rw [stop_idle _ _ h1]; exact h
  · simp only [not_or, Bool.not_eq_true] at h1
    have := h.1 h1.1
    cases ha : HttpGet.throws (shutdownUrl s.server) with
    | false =>
      rw [stop_active _ _ h1.1 h1.2 ha]
      simp [WellFormed, this]
    | true =>
      rw [stop_thrown _ _ h1.1 h1.2 ha]
      simp [WellFormed, this]

theorem inv_body (b : Branch) (out : String) (s : Instance) (h : WellFormed s) :
    WellFormed (b.body out s).1 := by
  cases b <;> simp only [Branch.body]
  · split
    · split
      · exact h
      · exact h
    · exact h
  · exact h
  · split
    · exact inv_stop _ _ h
    · exact inv_stop _ _ h
  · exact h
  · exact inv_destroy _ _ h
  · exact inv_destroy _ _ h
  · exact h
  · split
    · exact inv_destroy _ _ h
    · exact h

theorem inv_data (out : String) (s : Instance) (h : WellFormed s) : WellFormed (data out s).1 := by
  rw [data_eq_body]
  split
  · exact inv_body _ _ _ h
  · exact h

theorem inv_step (s : Instance) (e : Event) (h : WellFormed s) : WellFormed (step s e).1 := by
  cases e with
  | data ch out =>
    simp only [step]
    split
    · exact h
    · exact inv_data _ _ h
  | timeout t =>
    simp only [step]
    split
    · exact inv_destroy _ _ h
    · exact h
  | responseEnd req body =>
    simp only [step]
    split
    · rename_i cb hcb
      obtain ⟨hf, -⟩ := filter_lookup _ _ _ h.2 hcb
      rw [hf]
      cases cb with
      | none => simp [stopOnEnd, WellFormed]
      | some c =>
        simp only [stopOnEnd]
        cases c <;> simp only [invoke]
        · simp [WellFormed]
        · simp [WellFormed]
        · split
          · simp [WellFormed]
          · apply inv_destroy
            simp [WellFormed]
    · exact h
  | requestError req =>
    simp only [step]
    split
    · rename_i cb hcb
      obtain ⟨hf, -⟩ := filter_lookup _ _ _ h.2 hcb
      rw [hf]
      simp [WellFormed]
    · exact h
  | processExit code => exact h

theorem inv_run (s : Instance) (evs : List Event) (h : WellFormed s) : WellFormed (run s evs).1 := by
  induction evs generalizing s with
  | nil => exact h
  | cons e es ih => rw [run_cons]; exact ih _ (inv_step _ _ h)

theorem inv_of_reachable (s : Instance) (h : Reachable s) : WellFormed s := by
  obtain ⟨c, o, r, history, rfl⟩ := h
  apply inv_run
  simp [WellFormed, Webdriver]

end

theorem blind_isTerminal : Blind isTerminal := ⟨fun _ _ => rfl, fun _ _ => rfl, fun _ => rfl, rfl⟩
theorem blind_isDone : Blind isDone := ⟨fun _ _ => rfl, fun _ _ => rfl, fun _ => rfl, rfl⟩
theorem blind_isFatal : Blind isFatal := ⟨fun _ _ => rfl, fun _ _ => rfl, fun _ => rfl, rfl⟩
theorem blind_isNewWebdriver : Blind isNewWebdriver :=
  ⟨fun _ _ => rfl, fun _ _ => rfl, fun _ => rfl, rfl⟩

section

variable [HttpGet]

theorem stop_countP (p : Effect → Bool) (hp : Blind p) (cb : Option StopCallback)
    (s : Instance) : List.countP p (stop cb s).2 = 0 := by
  unfold stop
  split
  · simp
  · split <;> simp [hp.1, hp.2.2.2]

theorem destroy_countP (p : Effect → Bool) (hp : Blind p) (cb : Option StopCallback)
    (s : Instance) : List.countP p (destroy cb s).2 = 0 := by
  unfold destroy exit
  split
  · simp
  · exact stop_countP p hp _ _

theorem body_countP (p : Effect → Bool) (hp : Blind p) (b : Branch) (hb : b ≠ Branch.started)
    (out : String) (s : Instance) : List.countP p (b.body out s).2 = 0 := by
  cases b <;> simp only [Branch.body]
  · split
    · split <;> simp
    · simp
  · exact absurd rfl hb
  · split
    · simp [hp.2.2.1, stop_countP p hp]
    · exact stop_countP p hp _ _
  · simp [hp.2.1]
  · exact destroy_countP p hp _ _
  · exact destroy_countP p hp _ _
  · simp
  · split
    · exact destroy_countP p hp _ _
    · simp

end

theorem isText_false_iff (b : Branch) (ch : Channel) (out : String) :
    isText b (Event.data ch out) = false ↔ firstMatch out ≠ some b := by
  simp [isText]

section

variable [HttpGet]

theorem data_countP (p : Effect → Bool) (hp : Blind p) (out : String) (s : Instance)
    (h : firstMatch out ≠ some Branch.started) : List.countP p (data out s).2 = 0 := by
  rw [data_eq_body]
  split
  · rename_i b hb
    apply body_countP p hp
    rintro rfl
    exact h hb
  · simp

theorem step_countP (p : Effect → Bool) (hp : Blind p) (s : Instance) (e : Event)
    (h1 : isText Branch.started e = false) (h2 : isResponse e = false) :
    List.countP p (step s e).2 = 0 := by
  cases e with
  | data ch out =>
    simp only [step]
    split
    · simp
    · exact data_countP p hp _ _ ((isText_false_iff _ _ _).1 h1)
  | timeout t =>
    simp only [step]
    split
    · exact destroy_countP p hp _ _
    · simp
  | responseEnd req body => simp [isResponse] at h2
  | requestError req =>
    simp only [step]
    split <;> simp [hp.2.2.2]
  | processExit code => simp [step, onProcessExit]

theorem started_text_effects (s : Instance) (e : Event)
    (h : isText Branch.started e = true) :
    (step s e).2 = [] ∨ (step s e).2 = [Effect.done] := by
  cases e with
  | data ch out =>
    have hb : firstMatch out = some Branch.started := by simpa [isText] using h
    simp only [step]
    split
    · exact Or.inl rfl
    · right
      rw [data_eq_body, hb]
      rfl
  | timeout t => simp [isText] at h
  | responseEnd req body => simp [isText] at h
  | requestError req => simp [isText] at h
  | processExit code => simp [isText] at h

theorem invoke_effects (cb : StopCallback) (b : Bool) (s : Instance) :
    List.countP isDone (invoke cb b s).2 = 0 ∧ List.countP isFatal (invoke cb b s).2 ≤ 1 ∧
    List.countP isTerminal (invoke cb b s).2 ≤ 1 := by
  cases cb <;> simp only [invoke]
  · simp [isDone, isFatal, isTerminal]
  · simp
  · split
    · simp [isDone, isFatal, isTerminal]
    · simp [destroy_countP _ blind_isDone, destroy_countP _ blind_isFatal,
        destroy_countP _ blind_isTerminal]

theorem response_effects (s : Instance) (e : Event) (h : isResponse e = true) :
    List.countP isDone (step s e).2 = 0 ∧ List.countP isFatal (step s e).2 ≤ 1 ∧
    List.countP isTerminal (step s e).2 ≤ 1 := by
  cases e with
  | responseEnd req body =>
    simp only [step]
    split
    · rename_i cb hcb
      cases cb with
      | none => simp [stopOnEnd]
      | some c => exact invoke_effects _ _ _
    · simp
  | data ch out => simp [isResponse] at h
  | timeout t => simp [isResponse] at h
  | requestError req => simp [isResponse] at h
  | processExit code => simp [isResponse] at h

end

theorem started_text_not_response (e : Event) (h : isText Branch.started e = true) :
    isResponse e = false := by
  cases e <;> simp [isText, isResponse] at h ⊢

section

variable [HttpGet]

theorem run_done_le (s : Instance) (evs : List Event) :
    List.countP isDone (run s evs).2 ≤ List.countP (isText Branch.started) evs := by
  induction evs generalizing s with
  | nil => simp [run_nil]
  | cons e es ih =>
    rw [run_cons, List.countP_append, List.countP_cons]
    have := ih (step s e).1
    by_cases h1 : isText Branch.started e = true
    · rcases started_text_effects s e h1 with h | h <;> rw [h] <;> simp [h1, isDone] <;> omega
    · simp only [Bool.not_eq_true] at h1
      by_cases h2 : isResponse e = true
      · have := (response_effects s e h2).1
        simp [h1]; omega
      · simp only [Bool.not_eq_true] at h2
        have := step_countP isDone blind_isDone s e h1 h2
        simp [h1]; omega

theorem run_fatal_le (s : Instance) (evs : List Event) :
    List.countP isFatal (run s evs).2 ≤ List.countP isResponse evs := by
  induction evs generalizing s with
  | nil => simp [run_nil]
  | cons e es ih =>
    rw [run_cons, List.countP_append, List.countP_cons]
    have := ih (step s e).1
    by_cases h1 : isText Branch.started e = true
    · have h3 := started_text_not_response e h1
      rcases started_text_effects s e h1 with h | h <;> rw [h] <;> simp [h3, isFatal] <;> omega
    · simp only [Bool.not_eq_true] at h1
      by_cases h2 : isResponse e = true
      · have := (response_effects s e h2).2.1
        simp [h2]; omega
      · simp only [Bool.not_eq_true] at h2
        have := step_countP isFatal blind_isFatal s e h1 h2
        simp [h2]; omega

end

theorem timerBlind_isTerminal : TimerBlind isTerminal := ⟨fun _ _ => rfl, fun _ => rfl⟩
theorem timerBlind_isHttpGet : TimerBlind isHttpGet := ⟨fun _ _ => rfl, fun _ => rfl⟩
theorem timerBlind_isNewWebdriver : TimerBlind isNewWebdriver := ⟨fun _ _ => rfl, fun _ => rfl⟩
theorem timerBlind_isFatal : TimerBlind isFatal := ⟨fun _ _ => rfl, fun _ => rfl⟩

section

variable [HttpGet]

theorem body_quiet (p : Effect → Bool) (hp : TimerBlind p) (b : Branch)
    (hb : b ≠ Branch.started) (out : String) (s : Instance)
    (h1 : s.stopped = true) (h2 : s.requests = []) :
    (b.body out s).1.stopped = true ∧ (b.body out s).1.requests = [] ∧
    List.countP p (b.body out s).2 = 0 := by
  cases b <;> simp only [Branch.body]
  · split
    · split <;> simp [h1, h2]
    · simp [h1, h2]
  · exact absurd rfl hb
  · split <;> simp [stop, h1, h2, hp.2]
  · simp [h1, h2, hp.1]
  · simp [destroy, exit, h1, h2]
  · simp [destroy, exit, h1, h2]
  · simp [h1, h2]
  · split <;> simp [destroy, exit, h1, h2]

theorem step_quiet (p : Effect → Bool) (hp : TimerBlind p) (s : Instance) (e : Event)
    (he : isText Branch.started e = false)
    (h1 : s.stopped = true) (h2 : s.requests = []) :
    (step s e).1.stopped = true ∧ (step s e).1.requests = [] ∧
    List.countP p (step s e).2 = 0 := by
  cases e with
  | data ch out =>
    simp only [step]
    split
    · simp [h1, h2]
    · rw [data_eq_body]
      split
      · rename_i b hb
        apply body_quiet p hp _ _ _ _ h1 h2
        rintro rfl
        exact (isText_false_iff _ _ _).1 he hb
      · simp [h1, h2]
  | timeout t =>
    simp only [step]
    split
    · simp [destroy, exit, h1, h2]
    · simp [h1, h2]
  | responseEnd req body => simp [step, h1, h2]
  | requestError req => simp [step, h1, h2]
  | processExit code => simp [step, onProcessExit, h1, h2]

theorem run_quiet (p : Effect → Bool) (hp : TimerBlind p) (s : Instance) (evs : List Event)
    (he : ∀ e ∈ evs, isText Branch.started e = false)
    (h1 : s.stopped = true) (h2 : s.requests = []) :
    (run s evs).1.stopped = true ∧ (run s evs).1.requests = [] ∧
    List.countP p (run s evs).2 = 0 := by
  induction evs generalizing s with
  | nil => simp [run_nil, h1, h2]
  | cons e es ih =>
    rw [run_cons]
    obtain ⟨a1, a2, a3⟩ := step_quiet p hp s e (he e (List.mem_cons_self _ _)) h1 h2
    obtain ⟨b1, b2, b3⟩ := ih (step s e).1 (fun x hx => he x (List.mem_cons_of_mem _ hx)) a1 a2
    simp [b1, b2, a3, b3]

theorem body_stopped_false (b : Branch) (out : String) (s : Instance)
    (h : s.stopped = false) : (b.body out s).1.stopped = false := by
  cases b <;> simp only [Branch.body]
  · split
    · split <;> simp [h]
    · exact h
  · rfl
  · split
    · unfold stop; (repeat' split) <;> simp [h]
    · unfold stop; (repeat' split) <;> simp [h]
  · exact h
  · unfold destroy exit stop; split
    · exact h
    · (repeat' split) <;> simp [h]
  · unfold destroy exit stop; split
    · exact h
    · (repeat' split) <;> simp [h]
  · exact h
  · split
    · unfold destroy exit stop; split
      · exact h
      · (repeat' split) <;> simp [h]
    · exact h

theorem step_phaseA (s : Instance) (e : Event) (hw : WellFormed s) (hs : s.stopped = false)
    (he : isText Branch.started e = false) (hr : responseOk e = true) :
    (List.countP isTerminal (step s e).2 = 0 ∧ (step s e).1.stopped = false) ∨
    (List.countP isTerminal (step s e).2 ≤ 1 ∧ (step s e).1.stopped = true ∧
      (step s e).1.requests = []) := by
  by_cases h2 : isResponse e = true
  · cases e with
    | responseEnd req body =>
      simp only [responseOk] at hr
      simp only [step]
      split
      · rename_i cb hcb
        obtain ⟨hf, -⟩ := filter_lookup _ _ _ hw.2 hcb
        rw [hf]
        cases cb with
        | none => left; simp [stopOnEnd, hs]
        | some c =>
          right
          simp only [stopOnEnd, hr]
          cases c <;> simp [invoke, isTerminal]
      · left; simp [hs]
    | data ch out => simp [isResponse] at h2
    | timeout t => simp [isResponse] at h2
    | requestError req => simp [isResponse] at h2
    | processExit code => simp [isResponse] at h2
  · simp only [Bool.not_eq_true] at h2
    left
    refine ⟨step_countP _ blind_isTerminal s e he h2, ?_⟩
    cases e with
    | data ch out =>
      simp only [step]
      split
      · exact hs
      · rw [data_eq_body]
        split
        · exact body_stopped_false _ _ _ hs
        · exact hs
    | timeout t =>
      simp only [step]
      split
      · unfold destroy exit stop; split
        · exact hs
        · (repeat' split) <;> simp [hs]
      · exact hs
    | responseEnd req body => simp [isResponse] at h2
    | requestError req =>
      simp only [step]
      split <;> exact hs
    | processExit code => exact hs

theorem run_phaseA (s : Instance) (evs : List Event) (hw : WellFormed s)
    (hs : s.stopped = false)
    (he : ∀ e ∈ evs, isText Branch.started e = false)
    (hr : ∀ e ∈ evs, responseOk e = true) :
    List.countP isTerminal (run s evs).2 ≤ 1 := by
  induction evs generalizing s with
  | nil => simp [run_nil]
  | cons e es ih =>
    rw [run_cons, List.countP_append]
    have he' : ∀ x ∈ es, isText Branch.started x = false :=
      fun x hx => he x (List.mem_cons_of_mem _ hx)
    rcases step_phaseA s e hw hs (he e (List.mem_cons_self _ _))
        (hr e (List.mem_cons_self _ _)) with ⟨h1, h2⟩ | ⟨h1, h2, h3⟩
    · have := ih (step s e).1 (inv_step _ _ hw) h2 he'
        (fun x hx => hr x (List.mem_cons_of_mem _ hx))
      simp only [h1]; omega
    · have := (run_quiet isTerminal timerBlind_isTerminal (step s e).1 es he' h2 h3).2.2
      simp only [this]; omega

end

theorem isText_true (b : Branch) (e : Event) (h : isText b e = true) :
    ∃ ch out, e = Event.data ch out ∧ firstMatch out = some b := by
  cases e with
  | data ch out => exact ⟨ch, out, rfl, by simpa [isText] using h⟩
  | timeout t => simp [isText] at h
  | responseEnd req body => simp [isText] at h
  | requestError req => simp [isText] at h
  | processExit code => simp [isText] at h

section

variable [HttpGet]

theorem step_data_live (s : Instance) (hd : s.destroyed = false) (ch : Channel)
    (out : String) : step s (Event.data ch out) = data out s := by
  simp [step, hd]

theorem running_text_step (s : Instance) (hw : WellFormed s) (h1 : s.stopping = false)
    (h2 : s.stopped = false) (hd : s.destroyed = false)
    (ha : HttpGet.throws (shutdownUrl s.server) = false) (ch : Channel) (out : String)
    (hout : firstMatch out = some Branch.running) :
    ∃ ts, step s (Event.data ch out) =
      ({ s with
          timers := ts
          stopping := true
          requests := [(s.nextRequest, some StopCallback.retry)]
          nextRequest := s.nextRequest + 1 },
       s.failureTimeout.toList.map Effect.clearTimeout ++
         [Effect.httpGet s.nextRequest (shutdownUrl s.server)]) := by
  have hr := hw.1 h1
  unfold shutdownUrl at ha
  rw [step_data_live _ hd, data_eq_body, hout]
  simp only [Branch.body]
  split
  · rename_i t ht
    exact ⟨s.timers.erase t, by simp [stop, h1, h2, hr, ht, ha, shutdownUrl]⟩
  · rename_i ht
    exact ⟨s.timers, by simp [stop, h1, h2, hr, ht, ha, shutdownUrl]⟩

end

theorem isTimeout_true (e : Event) (h : isTimeout e = true) : ∃ t, e = Event.timeout t := by
  cases e with
  | timeout t => exact ⟨t, rfl⟩
  | data ch out => simp [isTimeout] at h
  | responseEnd req body => simp [isTimeout] at h
  | requestError req => simp [isTimeout] at h
  | processExit code => simp [isTimeout] at h

section

variable [HttpGet]

theorem destroy_destroyed (cb : Option StopCallback) (s : Instance)
    (h : s.destroyed = true) : (destroy cb s).1.destroyed = true := by
  rcases destroy_cases cb s with ⟨-, e⟩ | ⟨-, -, -, e⟩ | ⟨-, -, -, e⟩ <;> rw [e]
  exact h

theorem step_destroyed (s : Instance) (e : Event) (h : s.destroyed = true) :
    (step s e).1.destroyed = true := by
  cases e with
  | data ch out => simp [step, h]
  | timeout t =>
    simp only [step]
    split
    · exact destroy_destroyed _ _ h
    · exact h
  | responseEnd req body =>
    simp only [step]
    split
    · rename_i cb _
      cases cb with
      | none => exact h
      | some c =>
        cases c <;> simp only [stopOnEnd, invoke]
        · exact h
        · exact h
        · split
          · exact h
          · exact destroy_destroyed _ _ h
    · exact h
  | requestError req =>
    simp only [step]
    split <;> exact h
  | processExit code => exact h

theorem run_destroyed (s : Instance) (evs : List Event) (h : s.destroyed = true) :
    (run s evs).1.destroyed = true := by
  induction evs generalizing s with
  | nil => exact h
  | cons e es ih => rw [run_cons]; exact ih _ (step_destroyed s e h)

theorem run_failures (pre : List Event) (s : Instance)
    (hpre : ∀ e ∈ pre, isText Branch.failure e = true ∨ isTimeout e = true)
    (h1 : s.stopping = false) (h2 : s.stopped = false)
    (hlive : (run s pre).1.destroyed = false) :
    (run s pre).1.stopping = false ∧ (run s pre).1.stopped = false ∧
    (run s pre).1.nextRequest = s.nextRequest ∧ (run s pre).1.server = s.server ∧
    List.countP isFatal (run s pre).2 = 0 ∧ List.countP isNewWebdriver (run s pre).2 = 0 ∧
    List.countP isHttpGet (run s pre).2 = 0 ∧
    ((s.failureTimeout.isSome = true ∨ ∃ e ∈ pre, isText Branch.failure e = true) →
      (run s pre).1.failureTimeout.isSome = true) := by
  induction pre generalizing s with
  | nil =>
    refine ⟨h1, h2, rfl, rfl, rfl, rfl, rfl, ?_⟩
    rintro (h | ⟨e, he, -⟩)
    · exact h
    · simp at he
  | cons e es ih =>
    rw [run_cons] at hlive ⊢
    dsimp only at hlive ⊢
    have hd1 : (step s e).1.destroyed = false := by
      cases hc : (step s e).1.destroyed with
      | false => rfl
      | true => rw [run_destroyed _ es hc] at hlive; exact absurd hlive (by simp)
    have hd0 : s.destroyed = false := by
      cases hc : s.destroyed with
      | false => rfl
      | true => rw [step_destroyed s e hc] at hd1; exact absurd hd1 (by simp)
    have hes : ∀ x ∈ es, isText Branch.failure x = true ∨ isTimeout x = true :=
      fun x hx => hpre x (List.mem_cons_of_mem _ hx)
    have key : (step s e).1.stopping = false ∧ (step s e).1.stopped = false ∧
        (step s e).1.nextRequest = s.nextRequest ∧ (step s e).1.server = s.server ∧
        List.countP isFatal (step s e).2 = 0 ∧ List.countP isNewWebdriver (step s e).2 = 0 ∧
        List.countP isHttpGet (step s e).2 = 0 ∧
        ((s.failureTimeout.isSome = true ∨ isText Branch.failure e = true) →
          (step s e).1.failureTimeout.isSome = true) := by
      rcases hpre e (List.mem_cons_self _ _) with he | he
      · obtain ⟨ch, out, rfl, hout⟩ := isText_true _ _ he
        rw [step_data_live _ hd0, data_eq_body, hout]
        simp [Branch.body, h1, h2, isFatal, isNewWebdriver, isHttpGet]
      · obtain ⟨t, rfl⟩ := isTimeout_true _ he
        by_cases ht : t ∈ s.timers
        · exfalso
          have : (step s (Event.timeout t)).1.destroyed = true := by
            simp only [step, ht, if_true]
            exact destroy_sets_destroyed _ _ h1 h2
          rw [this] at hd1
          exact absurd hd1 (by simp)
        · simp [step, ht, h1, h2, isText]
    obtain ⟨k1, k2, k3, k4, k5, k6, k7, k8⟩ := key
    obtain ⟨i1, i2, i3, i4, i5, i6, i7, i8⟩ := ih (step s e).1 hes k1 k2 hlive
    refine ⟨i1, i2, i3.trans k3, i4.trans k4, ?_, ?_, ?_, ?_⟩
    · simp [List.countP_append, k5, i5]
    · simp [List.countP_append, k6, i6]
    · simp [List.countP_append, k7, i7]
    · rintro (h | ⟨x, hx, hxf⟩)
      · exact i8 (Or.inl (k8 (Or.inl h)))
      · rcases List.mem_cons.1 hx with rfl | hx'
        · exact i8 (Or.inl (k8 (Or.inr hxf)))
        · exact i8 (Or.inr ⟨x, hx', hxf⟩)

theorem run_timeouts_idle (evs : List Event) (s : Instance)
    (hevs : ∀ e ∈ evs, isTimeout e = true) (h : s.stopping = true ∨ s.stopped = true) :
    ∃ ts, run s evs = ({ s with timers := ts }, []) := by
  induction evs generalizing s with
  | nil => exact ⟨s.timers, rfl⟩
  | cons e es ih =>
    obtain ⟨t, rfl⟩ := isTimeout_true _ (hevs e (List.mem_cons_self _ _))
    have hstep : ∃ ts, step s (Event.timeout t) = ({ s with timers := ts }, []) := by
      by_cases ht : t ∈ s.timers
      · refine ⟨s.timers.erase t, ?_⟩
        rcases h with h | h <;> simp [step, ht, destroy, exit, h]
      · exact ⟨s.timers, by simp [step, ht]⟩
    obtain ⟨ts, hts⟩ := hstep
    obtain ⟨ts2, hts2⟩ := ih { s with timers := ts }
      (fun x hx => hevs x (List.mem_cons_of_mem _ hx)) h
    exact ⟨ts2, by rw [run_cons, hts]; dsimp only; rw [hts2]; rfl⟩

end

theorem timeout_not_started (evs : List Event) (h : ∀ e ∈ evs, isTimeout e = true) :
    ∀ e ∈ evs, isText Branch.started e = false := by
  intro e he
  obtain ⟨t, rfl⟩ := isTimeout_true _ (h e he)
  rfl

section

variable [HttpGet]

theorem step_terminal_le_one (s : Instance) (e : Event) :
    List.countP isTerminal (step s e).2 ≤ 1 := by
  by_cases h1 : isText Branch.started e = true
  · rcases started_text_effects s e h1 with h | h <;> rw [h] <;> simp [isTerminal]
  · simp only [Bool.not_eq_true] at h1
    by_cases h2 : isResponse e = true
    · exact (response_effects s e h2).2.2
    · simp only [Bool.not_eq_true] at h2
      rw [step_countP _ blind_isTerminal s e h1 h2]
      exact Nat.zero_le _

end

theorem list_ne_append_singleton {α : Type} (l : List α) (x : α) : l ≠ l ++ [x] := by
  intro h
  have := congrArg List.length h
  simp at this

section

variable [HttpGet]

theorem run_new_sessions (news : List Event) (s : Instance)
    (h : ∀ e ∈ news, isText Branch.sessionNew e = true) (hd : s.destroyed = false) :
    run s news = ({ s with sessions := s.sessions + news.length }, []) := by
  induction news generalizing s with
  | nil => simp [run_nil]
  | cons e es ih =>
    obtain ⟨ch, out, rfl, hout⟩ := isText_true _ _ (h e (List.mem_cons_self _ _))
    have hstep : step s (Event.data ch out) = ({ s with sessions := s.sessions + 1 }, []) := by
      rw [step_data_live _ hd, data_eq_body, hout]
      rfl
    rw [run_cons, hstep]
    dsimp only
    rw [ih { s with sessions := s.sessions + 1 }
      (fun x hx => h x (List.mem_cons_of_mem _ hx)) hd]
    simp only [List.length_cons, Nat.cast_add, Nat.cast_one, List.nil_append,
      Prod.mk.injEq, and_true]
    congr 1
    omega

theorem run_delete_sessions (dels : List Event) (s : Instance)
    (h : ∀ e ∈ dels, isText Branch.sessionDelete e = true) (hd : s.destroyed = false)
    (hlt : (dels.length : Int) < s.sessions) :
    run s dels = ({ s with sessions := s.sessions - dels.length }, []) := by
  induction dels generalizing s with
  | nil => simp [run_nil]
  | cons e es ih =>
    obtain ⟨ch, out, rfl, hout⟩ := isText_true _ _ (h e (List.mem_cons_self _ _))
    simp only [List.length_cons, Nat.cast_add, Nat.cast_one] at hlt
    have hpos : ¬ s.sessions - 1 ≤ 0 := by omega
    have hstep : step s (Event.data ch out) = ({ s with sessions := s.sessions - 1 }, []) := by
      rw [step_data_live _ hd, data_eq_body, hout]
      simp only [Branch.body, if_neg hpos]
    rw [run_cons, hstep]
    dsimp only
    rw [ih { s with sessions := s.sessions - 1 }
      (fun x hx => h x (List.mem_cons_of_mem _ hx)) hd (by simp only; omega)]
    simp only [List.length_cons, Nat.cast_add, Nat.cast_one, List.nil_append,
      Prod.mk.injEq, and_true]
    congr 1
    omega

end

/-! ## The endpoint, the trace and the shape of the effects -/

section

variable [HttpGet]

theorem stop_keeps (cb : Option StopCallback) (s : Instance) :
    (stop cb s).1.server = s.server ∧ (stop cb s).1.stackTrace = s.stackTrace ∧
    (stop cb s).1.destroyed = s.destroyed := by
  rcases stop_cases cb s with ⟨-, e⟩ | ⟨-, -, -, e⟩ | ⟨-, -, -, e⟩ <;> rw [e] <;> simp

theorem destroy_keeps (cb : Option StopCallback) (s : Instance) :
    (destroy cb s).1.server = s.server ∧ (destroy cb s).1.stackTrace = s.stackTrace := by
  rcases destroy_cases cb s with ⟨-, e⟩ | ⟨-, -, -, e⟩ | ⟨-, -, -, e⟩ <;> rw [e] <;> simp

theorem data_server (out : String) (s : Instance) :
    (data out s).1.server = serverAfter s.server out := by
  rw [data_eq_body]
  unfold serverAfter
  cases hfm : firstMatch out with
  | none => simp
  | some b =>
    cases b <;> simp only [Branch.body]
    · simp only [if_true]
      split
      · split <;> rfl
      · rfl
    · simp [started]
    · split <;> simp [(stop_keeps _ _).1]
    · simp
    · simp [(destroy_keeps _ _).1]
    · simp [(destroy_keeps _ _).1]
    · simp
    · split <;> simp [(destroy_keeps _ _).1]

theorem data_stackTrace (out : String) (s : Instance) :
    (data out s).1.stackTrace = capture s.stackTrace out := by
  rw [data_eq_body]
  unfold capture
  cases hfm : firstMatch out with
  | none => simp
  | some b =>
    cases b <;> simp only [Branch.body]
    · split
      · split <;> simp
      · simp
    · simp [started]
    · split <;> simp [(stop_keeps _ _).2.1]
    · simp
    · simp [(destroy_keeps _ _).2]
    · simp [(destroy_keeps _ _).2]
    · simp
    · split <;> simp [(destroy_keeps _ _).2]

theorem invoke_keeps (cb : StopCallback) (b : Bool) (s : Instance) :
    (invoke cb b s).1.server = s.server ∧ (invoke cb b s).1.stackTrace = s.stackTrace := by
  cases cb <;> simp only [invoke]
  · simp
  · simp
  · split
    · simp
    · exact destroy_keeps _ _

theorem step_keeps (s : Instance) (e : Event) (h : ∀ ch out, e ≠ Event.data ch out) :
    (step s e).1.server = s.server ∧ (step s e).1.stackTrace = s.stackTrace := by
  cases e with
  | data ch out => exact absurd rfl (h ch out)
  | timeout t =>
    simp only [step]
    split
    · exact destroy_keeps _ _
    · simp
  | responseEnd req body =>
    simp only [step]
    split
    · rename_i cb _
      cases cb with
      | none => simp [stopOnEnd]
      | some c => simp only [stopOnEnd]; exact invoke_keeps _ _ _
    · simp
  | requestError req =>
    simp only [step]
    split <;> simp
  | processExit code => simp [step, onProcessExit]

theorem run_server_stackTrace (evs : List Event) (s : Instance) :
    (run s evs).1.server = (handledTexts s evs).foldl serverAfter s.server ∧
    (run s evs).1.stackTrace = (handledTexts s evs).foldl capture s.stackTrace := by
  induction evs generalizing s with
  | nil => simp [run_nil, handledTexts]
  | cons e es ih =>
    rw [run_cons]
    dsimp only
    obtain ⟨i1, i2⟩ := ih (step s e).1
    rw [i1, i2]
    cases e with
    | data ch out =>
      by_cases hd : s.destroyed = true
      · simp [handledTexts, hd, step]
      · simp only [Bool.not_eq_true] at hd
        simp only [handledTexts, hd, Bool.false_eq_true, if_false, List.foldl_cons]
        rw [step_data_live _ hd, data_server, data_stackTrace]
        exact ⟨rfl, rfl⟩
    | timeout t =>
      obtain ⟨k1, k2⟩ := step_keeps s (Event.timeout t) (fun _ _ => Event.noConfusion)
      simp [handledTexts, k1, k2]
    | responseEnd req body =>
      obtain ⟨k1, k2⟩ := step_keeps s (Event.responseEnd req body) (fun _ _ => Event.noConfusion)
      simp [handledTexts, k1, k2]
    | requestError req =>
      obtain ⟨k1, k2⟩ := step_keeps s (Event.requestError req) (fun _ _ => Event.noConfusion)
      simp [handledTexts, k1, k2]
    | processExit code =>
      obtain ⟨k1, k2⟩ := step_keeps s (Event.processExit code) (fun _ _ => Event.noConfusion)
      simp [handledTexts, k1, k2]

theorem stop_effects (cb : Option StopCallback) (s : Instance) :
    ∀ eff ∈ (stop cb s).2, eff = Effect.httpGet s.nextRequest (shutdownUrl s.server) ∨
      eff = Effect.uncaught := by
  rcases stop_cases cb s with ⟨-, e⟩ | ⟨-, -, -, e⟩ | ⟨-, -, -, e⟩ <;> rw [e] <;> simp

theorem destroy_effects (cb : Option StopCallback) (s : Instance) :
    ∀ eff ∈ (destroy cb s).2, eff = Effect.httpGet s.nextRequest (shutdownUrl s.server) ∨
      eff = Effect.uncaught := by
  rcases destroy_cases cb s with ⟨-, e⟩ | ⟨-, -, -, e⟩ | ⟨-, -, -, e⟩ <;> rw [e] <;> simp

theorem body_effects (b : Branch) (out : String) (s : Instance) :
    ∀ eff ∈ (b.body out s).2, eff = Effect.httpGet s.nextRequest (shutdownUrl s.server) ∨
      eff = Effect.uncaught ∨ eff = Effect.done ∨ isTimerEffect eff = true := by
  have hstop : ∀ cb (s0 : Instance), s0.nextRequest = s.nextRequest → s0.server = s.server →
      ∀ eff ∈ (stop cb s0).2, eff = Effect.httpGet s.nextRequest (shutdownUrl s.server) ∨
        eff = Effect.uncaught ∨ eff = Effect.done ∨ isTimerEffect eff = true := by
    intro cb s0 e1 e2 eff heff
    rcases stop_effects cb s0 eff heff with h | h
    · rw [e1, e2] at h; exact Or.inl h
    · exact Or.inr (Or.inl h)
  have hdestroy : ∀ cb (s0 : Instance), s0.nextRequest = s.nextRequest →
      s0.server = s.server →
      ∀ eff ∈ (destroy cb s0).2, eff = Effect.httpGet s.nextRequest (shutdownUrl s.server) ∨
        eff = Effect.uncaught ∨ eff = Effect.done ∨ isTimerEffect eff = true := by
    intro cb s0 e1 e2 eff heff
    rcases destroy_effects cb s0 eff heff with h | h
    · rw [e1, e2] at h; exact Or.inl h
    · exact Or.inr (Or.inl h)
  cases b <;> simp only [Branch.body]
  · split
    · split <;> simp
    · simp
  · simp [started]
  · split
    · intro eff heff
      rcases List.mem_cons.1 heff with rfl | h
      · right; right; right; rfl
      · exact hstop _ _ (by rfl) (by rfl) eff h
    · exact hstop _ _ rfl rfl
  · simp [isTimerEffect]
  · exact hdestroy _ _ rfl rfl
  · exact hdestroy _ _ rfl rfl
  · simp
  · split
    · exact hdestroy _ _ rfl rfl
    · simp

theorem invoke_effects_shape (cb : StopCallback) (b : Bool) (s : Instance) :
    ∀ eff ∈ (invoke cb b s).2, eff = Effect.httpGet s.nextRequest (shutdownUrl s.server) ∨
      eff = Effect.uncaught ∨ eff = Effect.fatal (fatalMessage s) ∨
      eff = Effect.newWebdriver s.context s.options true := by
  cases cb <;> simp only [invoke]
  · simp
  · simp
  · split
    · simp
    · intro eff heff
      rcases destroy_effects _ _ eff heff with h | h
      · exact Or.inl h
      · exact Or.inr (Or.inl h)

theorem step_effects_shape (s : Instance) (e : Event) :
    ∀ eff ∈ (step s e).2, eff = Effect.httpGet s.nextRequest (shutdownUrl s.server) ∨
      eff = Effect.fatal (fatalMessage s) ∨ eff = Effect.newWebdriver s.context s.options true ∨
      eff = Effect.done ∨ eff = Effect.uncaught ∨ isTimerEffect eff = true := by
  intro eff heff
  cases e with
  | data ch out =>
    simp only [step] at heff
    split at heff
    · simp at heff
    · rw [data_eq_body] at heff
      split at heff
      · have hh := body_effects _ _ _ eff heff
        rcases hh with h | h | h | h
        · exact Or.inl h
        · exact Or.inr (Or.inr (Or.inr (Or.inr (Or.inl h))))
        · exact Or.inr (Or.inr (Or.inr (Or.inl h)))
        · exact Or.inr (Or.inr (Or.inr (Or.inr (Or.inr h))))
      · simp at heff
  | timeout t =>
    simp only [step] at heff
    split at heff
    · have hh := destroy_effects _ _ eff heff
      rcases hh with h | h
      · exact Or.inl h
      · exact Or.inr (Or.inr (Or.inr (Or.inr (Or.inl h))))
    · simp at heff
  | responseEnd req body =>
    simp only [step] at heff
    split at heff
    · rename_i cb _
      cases cb with
      | none => simp [stopOnEnd] at heff
      | some c =>
        simp only [stopOnEnd] at heff
        have hh := invoke_effects_shape _ _ _ eff heff
        rcases hh with h | h | h | h
        · exact Or.inl h
        · exact Or.inr (Or.inr (Or.inr (Or.inr (Or.inl h))))
        · exact Or.inr (Or.inl h)
        · exact Or.inr (Or.inr (Or.inl h))
    · simp at heff
  | requestError req =>
    simp only [step] at heff
    split at heff
    · simp at heff
      exact Or.inr (Or.inr (Or.inr (Or.inr (Or.inl heff))))
    · simp at heff
  | processExit code => simp [step, onProcessExit] at heff

end

/-! ## The status flags -/

section

variable [HttpGet]

theorem stop_exclusive (cb : Option StopCallback) (s : Instance)
    (h : s.stopping = true → s.stopped = false) :
    (stop cb s).1.stopping = true → (stop cb s).1.stopped = false := by
  rcases stop_cases cb s with ⟨-, e⟩ | ⟨-, h2, -, e⟩ | ⟨-, h2, -, e⟩ <;> rw [e]
  · exact h
  · exact fun _ => h2
  · exact fun _ => h2

theorem destroy_exclusive (cb : Option StopCallback) (s : Instance)
    (h : s.stopping = true → s.stopped = false) :
    (destroy cb s).1.stopping = true → (destroy cb s).1.stopped = false := by
  rcases destroy_cases cb s with ⟨-, e⟩ | ⟨-, h2, -, e⟩ | ⟨-, h2, -, e⟩ <;> rw [e]
  · exact h
  · exact fun _ => h2
  · exact fun _ => h2

theorem body_exclusive (b : Branch) (out : String) (s : Instance)
    (h : s.stopping = true → s.stopped = false) :
    (b.body out s).1.stopping = true → (b.body out s).1.stopped = false := by
  cases b <;> simp only [Branch.body]
  · split
    · split <;> exact h
    · exact h
  · simp [started]
  · split
    · exact stop_exclusive _ _ h
    · exact stop_exclusive _ _ h
  · exact h
  · exact destroy_exclusive _ _ h
  · exact destroy_exclusive _ _ h
  · exact h
  · split
    · exact destroy_exclusive _ _ h
    · exact h

theorem step_exclusive (s : Instance) (e : Event)
    (h : s.stopping = true → s.stopped = false) :
    (step s e).1.stopping = true → (step s e).1.stopped = false := by
  cases e with
  | data ch out =>
    simp only [step]
    split
    · exact h
    · rw [data_eq_body]
      split
      · exact body_exclusive _ _ _ h
      · exact h
  | timeout t =>
    simp only [step]
    split
    · exact destroy_exclusive _ _ h
    · exact h
  | responseEnd req body =>
    simp only [step]
    split
    · rename_i cb _
      cases cb with
      | none => simp [stopOnEnd]
      | some c =>
        cases c <;> simp only [stopOnEnd, invoke]
        · simp
        · simp
        · split
          · simp
          · apply destroy_exclusive
            simp
    · exact h
  | requestError req =>
    simp only [step]
    split <;> exact h
  | processExit code => exact h

theorem run_exclusive (evs : List Event) (s : Instance)
    (h : s.stopping = true → s.stopped = false) :
    (run s evs).1.stopping = true → (run s evs).1.stopped = false := by
  induction evs generalizing s with
  | nil => exact h
  | cons e es ih => rw [run_cons]; exact ih _ (step_exclusive s e h)

theorem body_stopping_stays (b : Branch) (out : String) (s : Instance)
    (h : s.stopping = true) :
    (b.body out s).1.stopping = true ∧ (b.body out s).1.requests = s.requests ∧
    List.countP isHttpGet (b.body out s).2 = 0 := by
  cases b <;> simp only [Branch.body]
  · split
    · split <;> simp [h]
    · simp [h]
  · simp [started, h, isHttpGet]
  · split <;> simp [stop, h, isHttpGet]
  · simp [h, isHttpGet]
  · simp [destroy, exit, h]
  · simp [destroy, exit, h]
  · simp [h]
  · split <;> simp [destroy, exit, h]

theorem step_stopping_stays (s : Instance) (e : Event) (h : s.stopping = true)
    (he : ∀ req body, e = Event.responseEnd req body → s.requests.lookup req = none) :
    (step s e).1.stopping = true ∧ List.countP isHttpGet (step s e).2 = 0 := by
  cases e with
  | data ch out =>
    simp only [step]
    split
    · simp [h]
    · rw [data_eq_body]
      split
      · exact ⟨(body_stopping_stays _ _ _ h).1, (body_stopping_stays _ _ _ h).2.2⟩
      · simp [h]
  | timeout t =>
    simp only [step]
    split
    · simp [destroy, exit, h]
    · simp [h]
  | responseEnd req body =>
    simp [step, he req body rfl, h]
  | requestError req =>
    simp only [step]
    split <;> simp [h, isHttpGet]
  | processExit code => simp [step, onProcessExit, h]

theorem step_stuck (p : Effect → Bool) (hp : TimerBlind p) (hdone : p Effect.done = false)
    (s : Instance) (e : Event) (h1 : s.stopping = true) (h2 : s.requests = []) :
    (step s e).1.stopping = true ∧ (step s e).1.requests = [] ∧
    List.countP p (step s e).2 = 0 := by
  cases e with
  | data ch out =>
    simp only [step]
    split
    · simp [h1, h2]
    · rw [data_eq_body]
      split
      · rename_i b _
        cases b <;> simp only [Branch.body]
        · split
          · split <;> simp [h1, h2]
          · simp [h1, h2]
        · simp [started, h1, h2, hdone]
        · split <;> simp [stop, h1, h2, hp.2]
        · simp [h1, h2, hp.1]
        · simp [destroy, exit, h1, h2]
        · simp [destroy, exit, h1, h2]
        · simp [h1, h2]
        · split <;> simp [destroy, exit, h1, h2]
      · simp [h1, h2]
  | timeout t =>
    simp only [step]
    split
    · simp [destroy, exit, h1, h2]
    · simp [h1, h2]
  | responseEnd req body => simp [step, h1, h2]
  | requestError req => simp [step, h1, h2]
  | processExit code => simp [step, onProcessExit, h1, h2]

theorem run_stuck (p : Effect → Bool) (hp : TimerBlind p) (hdone : p Effect.done = false)
    (evs : List Event) (s : Instance) (h1 : s.stopping = true) (h2 : s.requests = []) :
    (run s evs).1.stopping = true ∧ (run s evs).1.requests = [] ∧
    List.countP p (run s evs).2 = 0 := by
  induction evs generalizing s with
  | nil => simp [run_nil, h1, h2]
  | cons e es ih =>
    rw [run_cons]
    obtain ⟨a1, a2, a3⟩ := step_stuck p hp hdone s e h1 h2
    obtain ⟨b1, b2, b3⟩ := ih (step s e).1 a1 a2
    simp [b1, b2, a3, b3]

end

theorem exception_text_nonempty (out : String) (h : firstMatch out = some Branch.exception) :
    out ≠ "" := by
  rintro rfl
  revert h
  decide

theorem capture_nonempty (texts : List String) (tr : Option String)
    (htr : ∀ t, tr = some t → t ≠ "") :
    ∀ t, texts.foldl capture tr = some t → t ≠ "" := by
  induction texts generalizing tr with
  | nil => exact htr
  | cons x xs ih =>
    simp only [List.foldl_cons]
    apply ih
    intro t ht
    unfold capture at ht
    split at ht
    · rename_i hx
      simp only [Option.some.injEq] at ht
      subst ht
      exact exception_text_nonempty _ hx
    · exact htr t ht

theorem fatalMessage_of_trace (s : Instance) (h : ∀ t, s.stackTrace = some t → t ≠ "") :
    fatalMessage s = s.stackTrace.getD "Selenium terminated unexpectedly" := by
  unfold fatalMessage
  cases hs : s.stackTrace with
  | none => rfl
  | some t => simp [h t hs]

/-! ## C1: the classifier -/

section

variable [HttpGet]

/-- C1: for every text, `data` takes exactly the branch that is first, in the order endpoint
announcement, started, already running, failure, exception, fatal error, new session, delete
session, among those whose pattern occurs in the text (the pattern of that branch occurs and
no earlier one does); a text with both the failure and the already-running marker is handled
as already running only, a text with both session markers only increments the session
count, and a text in which no pattern occurs leaves the state as it is and causes no
effect. -/
theorem C1_data_takes_first_matching_branch (out : String) (s : Instance) :
    (data out s = match firstMatch out with
      | some b => b.body out s
      | none => (s, [])) ∧
    (∀ b, firstMatch out = some b →
      b.occurs out = true ∧
        ∀ b' ∈ branchOrder.takeWhile (fun x => x != b), b'.occurs out = false) ∧
    (firstMatch out = none ↔ ∀ b : Branch, b.occurs out = false) ∧
    (REMOTE_REGEXP_test out = false → STARTED_REGEXP_test out = false →
      RUNNING_REGEXP_test out = true → FAILURE_REGEXP_test out = true →
      data out s = Branch.running.body out s) ∧
    (firstMatch out = some Branch.sessionNew → SESSION_DELETE_REGEXP_test out = true →
      data out s = ({ s with sessions := s.sessions + 1 }, [])) ∧
    (firstMatch out = none → data out s = (s, [])) := by
  refine ⟨data_eq_body out s, ?_, ?_, ?_, ?_, ?_⟩
  · intro b hb
    exact find_takeWhile _ _ b hb
  · rw [firstMatch_cases]
    constructor
    · intro h b
      cases b <;> simp only [Branch.occurs] <;> revert h <;>
      cases REMOTE_REGEXP_test out <;> cases STARTED_REGEXP_test out <;>
      cases RUNNING_REGEXP_test out <;> cases FAILURE_REGEXP_test out <;>
      cases EXCEPTION_REGEXP_test out <;> cases FATAL_REGEXP_test out <;>
      cases SESSION_NEW_REGEXP_test out <;> cases SESSION_DELETE_REGEXP_test out <;> simp
    · intro h
      have h1 := h Branch.remote
      have h2 := h Branch.started
      have h3 := h Branch.running
      have h4 := h Branch.failure
      have h5 := h Branch.exception
      have h6 := h Branch.fatal
      have h7 := h Branch.sessionNew
      have h8 := h Branch.sessionDelete
      simp only [Branch.occurs] at h1 h2 h3 h4 h5 h6 h7 h8
      simp [h1, h2, h3, h4, h5, h6, h7, h8]
  · intro h1 h2 h3 _
    rw [data_eq_body, firstMatch_cases, h1, h2, h3]
    rfl
  · intro h _
    rw [data_eq_body, h]
    rfl
  · intro h
    rw [data_eq_body, h]

end

/-- C1, at concrete texts: a failure text that also carries the already-running marker, a
text with both session markers, and a text without any marker. -/
theorem C1_data_takes_first_matching_branch_witness :
    (data "Failed to start: Selenium is already running" protractor_webdriver =
      Branch.running.body "Failed to start: Selenium is already running" protractor_webdriver) ∧
    (data "Executing: [new session: a] Executing: [delete session: a]" protractor_webdriver =
      ({ protractor_webdriver with sessions := 1 }, [])) ∧
    (data "INFO - Launching a standalone server" protractor_webdriver = (protractor_webdriver, [])) :=
  ⟨(C1_data_takes_first_matching_branch _ _).2.2.2.1 (by decide) (by decide) (by decide)
      (by decide),
   (C1_data_takes_first_matching_branch _ _).2.2.2.2.1 (by decide) (by decide),
   (C1_data_takes_first_matching_branch _ _).2.2.2.2.2 (by decide)⟩

/-! ## C2: terminal callbacks -/

/-- C2, as stated, fails: a second started-marker text makes the instance invoke `done` a
second time, so two terminal callbacks are invoked. -/
theorem C2_counterexample :
    (run protractor_webdriver
      [Event.data Channel.stdout "Started org.openqa.jetty.jetty.Server",
       Event.data Channel.stdout "Started org.openqa.jetty.jetty.Server"]).2 =
      [Effect.done, Effect.done] ∧
    ¬ List.countP isTerminal (run protractor_webdriver
      [Event.data Channel.stdout "Started org.openqa.jetty.jetty.Server",
       Event.data Channel.stdout "Started org.openqa.jetty.jetty.Server"]).2 ≤ 1 := by
  decide

section

variable [HttpGet]

/-- C2, amended: for every sequence of events delivered to one instance, `done` is invoked
at most once per started-marker text and `grunt.fatal` at most once per completed shutdown
response; no single event invokes more than one terminal callback; and when the sequence
has no started-marker text and every shutdown response body contains `OKOK`, at most one
terminal callback is invoked in total. -/
theorem C2_terminal_callbacks_bounded (context : Context) (options : Options)
    (restarted : Bool) (evs : List Event) :
    List.countP isDone (run (Webdriver context options restarted) evs).2 ≤
      List.countP (isText Branch.started) evs ∧
    List.countP isFatal (run (Webdriver context options restarted) evs).2 ≤ List.countP isResponse evs ∧
    (∀ s e, List.countP isTerminal (step s e).2 ≤ 1) ∧
    ((∀ e ∈ evs, isText Branch.started e = false) → (∀ e ∈ evs, responseOk e = true) →
      List.countP isTerminal (run (Webdriver context options restarted) evs).2 ≤ 1) := by
  refine ⟨run_done_le _ _, run_fatal_le _ _, step_terminal_le_one, ?_⟩
  intro h1 h2
  exact run_phaseA _ _ (inv_of_reachable _ ⟨context, options, restarted, [], rfl⟩) rfl h1 h2

end

/-- C2, amended, on a run with a failure text, an exception text, the successful shutdown
response, the late grace timer and the exit of the process. -/
theorem C2_terminal_callbacks_bounded_witness :
    List.countP isTerminal (run protractor_webdriver
      [Event.data Channel.stderr "Failed to start",
       Event.data Channel.stdout "Exception thrown: java.net.BindException",
       Event.responseEnd 0 "OKOK",
       Event.timeout 0,
       Event.processExit 1]).2 ≤ 1 :=
  (C2_terminal_callbacks_bounded defaultTarget defaultOptions false _).2.2.2 (by decide) (by decide)

/-! ## C3: an already-running text inside the grace window -/

section

variable [HttpGet]

/-- C3: take an instance with neither status flag set that handles failure texts (one or
more, grace timers may run out in between) and then an already-running text; that text is
handled, so the streams are still live when it arrives and no grace timer has yet destroyed
them.  If the shutdown it requests is answered with a body containing `OKOK` (there is a
response, so `http.get` took the URL), then, whatever timers fire before and after the
response, exactly one new instance is created, the timer armed by the last failure text is
cleared, and `grunt.fatal` is never invoked. -/
theorem C3_already_running_preempts_failure (s : Instance) (hreach : Reachable s)
    (h1 : s.stopping = false) (h2 : s.stopped = false)
    (haccept : HttpGet.throws (shutdownUrl s.server) = false)
    (pre : List Event)
    (hpre : ∀ e ∈ pre, isText Branch.failure e = true ∨ isTimeout e = true)
    (hfail : ∃ e ∈ pre, isText Branch.failure e = true)
    (ch : Channel) (out : String) (hout : firstMatch out = some Branch.running)
    (hhandled : (run s pre).1.destroyed = false)
    (mid : List Event) (hmid : ∀ e ∈ mid, isTimeout e = true)
    (body : String) (hbody : SHUTDOWN_OK_REGEXP_test body = true)
    (post : List Event) (hpost : ∀ e ∈ post, isTimeout e = true) :
    List.countP isNewWebdriver
      (run s (pre ++ Event.data ch out :: (mid ++
        Event.responseEnd s.nextRequest body :: post))).2 = 1 ∧
    List.countP isFatal
      (run s (pre ++ Event.data ch out :: (mid ++
        Event.responseEnd s.nextRequest body :: post))).2 = 0 ∧
    ∃ t, (run s pre).1.failureTimeout = some t ∧
      Effect.clearTimeout t ∈
        (run s (pre ++ Event.data ch out :: (mid ++
          Event.responseEnd s.nextRequest body :: post))).2 := by
  obtain ⟨p1, p2, p3, p4, p5, p6, -, p8⟩ := run_failures pre s hpre h1 h2 hhandled
  have hw1 : WellFormed (run s pre).1 := inv_run _ _ (inv_of_reachable s hreach)
  obtain ⟨ts, hstep⟩ :=
    running_text_step _ hw1 p1 p2 hhandled (by rw [p4]; exact haccept) ch out hout
  rw [p3] at hstep
  obtain ⟨t, ht⟩ := Option.isSome_iff_exists.1 (p8 (Or.inr hfail))
  have hL : List.map Effect.clearTimeout (run s pre).1.failureTimeout.toList =
      [Effect.clearTimeout t] := by rw [ht]; rfl
  rw [hL] at hstep
  obtain ⟨ts2, hmidrun⟩ := run_timeouts_idle mid
    { (run s pre).1 with
        timers := ts
        stopping := true
        requests := [(s.nextRequest, some StopCallback.retry)]
        nextRequest := s.nextRequest + 1 } hmid (Or.inl rfl)
  have hq := fun p hp => (run_quiet p hp
    { (run s pre).1 with
        timers := ts2
        stopping := false
        stopped := true
        requests := []
        nextRequest := s.nextRequest + 1 } post (timeout_not_started post hpost) rfl rfl).2.2
  have q1 := hq isFatal timerBlind_isFatal
  have q2 := hq isNewWebdriver timerBlind_isNewWebdriver
  rw [run_append, run_cons, hstep]
  dsimp only
  rw [run_append, hmidrun, run_cons]
  simp only [step, List.lookup, beq_self_eq_true, stopOnEnd, hbody, invoke, if_true]
  have e1 : List.filter (fun p : Nat × Option StopCallback => p.1 != s.nextRequest)
      [(s.nextRequest, some StopCallback.retry)] = [] := by simp
  rw [e1]
  refine ⟨?_, ?_, t, ht, ?_⟩
  · simp [List.countP_cons, List.countP_append, isNewWebdriver, p6, q2]
  · simp [List.countP_cons, List.countP_append, isFatal, p5, q1]
  · simp

end

/-- C3, on a fresh instance: two failure texts, the already-running text, the first grace
timer, the response `OKOK`, then both timers. -/
theorem C3_already_running_preempts_failure_witness :
    List.countP isNewWebdriver
      (run protractor_webdriver
        ([Event.data Channel.stderr "Failed to start",
          Event.data Channel.stderr "Failed to start"] ++
          Event.data Channel.stderr "Selenium is already running" ::
            ([Event.timeout 0] ++
              Event.responseEnd protractor_webdriver.nextRequest "OKOK" ::
              [Event.timeout 0, Event.timeout 1]))).2 = 1 ∧
    List.countP isFatal
      (run protractor_webdriver
        ([Event.data Channel.stderr "Failed to start",
          Event.data Channel.stderr "Failed to start"] ++
          Event.data Channel.stderr "Selenium is already running" ::
            ([Event.timeout 0] ++
              Event.responseEnd protractor_webdriver.nextRequest "OKOK" ::
              [Event.timeout 0, Event.timeout 1]))).2 = 0 :=
  ⟨(C3_already_running_preempts_failure protractor_webdriver
    ⟨defaultTarget, defaultOptions, false, [], rfl⟩ rfl rfl (by decide)
    [Event.data Channel.stderr "Failed to start", Event.data Channel.stderr "Failed to start"]
    (by decide) (by decide) Channel.stderr "Selenium is already running" (by decide) (by decide)
    [Event.timeout 0] (by decide) "OKOK" (by decide) [Event.timeout 0, Event.timeout 1]
    (by decide)).1,
   (C3_already_running_preempts_failure protractor_webdriver
    ⟨defaultTarget, defaultOptions, false, [], rfl⟩ rfl rfl (by decide)
    [Event.data Channel.stderr "Failed to start", Event.data Channel.stderr "Failed to start"]
    (by decide) (by decide) Channel.stderr "Selenium is already running" (by decide) (by decide)
    [Event.timeout 0] (by decide) "OKOK" (by decide) [Event.timeout 0, Event.timeout 1]
    (by decide)).2.1⟩

/-! ## C4: the restart hand-off -/

/-- C4, as stated, fails: after the restart a started-marker text makes the original
instance invoke `done`, and it clears the stopped flag, so that a later fatal-error text
issues a further shutdown request. -/
theorem C4_counterexample :
    (run protractor_webdriver
      [Event.data Channel.stderr "Selenium is already running",
       Event.responseEnd 0 "OKOK",
       Event.data Channel.stdout "Started org.openqa.jetty.jetty.Server",
       Event.data Channel.stdout "Fatal error"]).2 =
      [Effect.httpGet 0
         "http://localhost:4444/selenium-server/driver/?cmd=shutDownSeleniumServer",
       Effect.newWebdriver defaultTarget defaultOptions true,
       Effect.done,
       Effect.httpGet 1
         "http://localhost:4444/selenium-server/driver/?cmd=shutDownSeleniumServer"] := by
  decide

section

variable [HttpGet]

/-- C4, amended: an instance with neither status flag set that handles an already-running
text and then a shutdown response containing `OKOK` (there is a response, so `http.get`
took the URL) creates exactly one new instance, with the same context and options and
restarted = true, and is left with the stopped flag set and its streams live; for every
sequence of events delivered to it afterwards that contains no started-marker text, it
invokes no terminal callback and issues no further shutdown request.  A started-marker
text, in whatever state it is handled, invokes `done` and clears the stopped flag. -/
theorem C4_restart_then_silent (s : Instance) (hreach : Reachable s)
    (h1 : s.stopping = false) (h2 : s.stopped = false) (hd : s.destroyed = false)
    (haccept : HttpGet.throws (shutdownUrl s.server) = false)
    (ch : Channel) (out : String) (hout : firstMatch out = some Branch.running)
    (body : String) (hbody : SHUTDOWN_OK_REGEXP_test body = true)
    (evs : List Event) (hevs : ∀ e ∈ evs, isText Branch.started e = false) :
    List.filter isNewWebdriver
        (run s (Event.data ch out :: Event.responseEnd s.nextRequest body :: evs)).2 =
      [Effect.newWebdriver s.context s.options true] ∧
    List.countP isTerminal
        (run s (Event.data ch out :: Event.responseEnd s.nextRequest body :: evs)).2 = 0 ∧
    List.countP isHttpGet
        (run s (Event.data ch out :: Event.responseEnd s.nextRequest body :: evs)).2 = 1 ∧
    (run s [Event.data ch out, Event.responseEnd s.nextRequest body]).1.stopped = true ∧
    (run s [Event.data ch out, Event.responseEnd s.nextRequest body]).1.destroyed = false ∧
    (∀ (s' : Instance) (ch' : Channel) (out' : String), s'.destroyed = false →
      firstMatch out' = some Branch.started →
      step s' (Event.data ch' out') = ({ s' with stopped := false }, [Effect.done])) := by
  obtain ⟨ts, hstep⟩ :=
    running_text_step s (inv_of_reachable s hreach) h1 h2 hd haccept ch out hout
  obtain ⟨cleared, hcleared⟩ :
      ∃ l, l = List.map Effect.clearTimeout s.failureTimeout.toList := ⟨_, rfl⟩
  have hcases : cleared = [] ∨ ∃ t, cleared = [Effect.clearTimeout t] := by
    cases hft : s.failureTimeout with
    | none => left; rw [hcleared, hft]; rfl
    | some t => right; exact ⟨t, by rw [hcleared, hft]; rfl⟩
  rw [← hcleared] at hstep
  have hstarted : ∀ (s' : Instance) (ch' : Channel) (out' : String), s'.destroyed = false →
      firstMatch out' = some Branch.started →
      step s' (Event.data ch' out') = ({ s' with stopped := false }, [Effect.done]) := by
    intro s' ch' out' hd' hout'
    rw [step_data_live _ hd', data_eq_body, hout']
    rfl
  have e1 : List.filter (fun p : Nat × Option StopCallback => p.1 != s.nextRequest)
      [(s.nextRequest, some StopCallback.retry)] = [] := by simp
  refine ⟨?_, ?_, ?_, ?_, ?_, hstarted⟩
  iterate 3
    rw [run_cons, hstep, run_cons]
    simp only [step, List.lookup, beq_self_eq_true, stopOnEnd, hbody, invoke, if_true]
    have hq := fun p hp => run_quiet p hp
      { s with
          timers := ts
          stopping := false
          stopped := true
          requests := []
          nextRequest := s.nextRequest + 1 } evs hevs rfl rfl
    rw [e1]
    have q1 := (hq isTerminal timerBlind_isTerminal).2.2
    have q2 := (hq isHttpGet timerBlind_isHttpGet).2.2
    have q3 := (hq isNewWebdriver timerBlind_isNewWebdriver).2.2
    rw [List.countP_eq_zero] at q3
    have q3' : List.filter isNewWebdriver (run { s with
          timers := ts
          stopping := false
          stopped := true
          requests := []
          nextRequest := s.nextRequest + 1 } evs).2 = [] := by
      rw [List.filter_eq_nil_iff]
      exact q3
    rcases hcases with rfl | ⟨t, rfl⟩ <;>
      simp [List.countP_cons, List.countP_append, List.filter_cons, isTerminal, isHttpGet,
        isNewWebdriver, q1, q2, q3']
  · rw [run_cons, hstep, run_cons]
    simp [step, List.lookup, stopOnEnd, hbody, invoke, run_nil]
  · rw [run_cons, hstep, run_cons]
    simp [step, List.lookup, stopOnEnd, hbody, invoke, run_nil, hd]

end

/-- C4, amended, on a fresh instance: after the restart an exception text, a fatal-error
text, a failure text, its timer and the exit of the process stay without consequence. -/
theorem C4_restart_then_silent_witness :
    List.countP isTerminal
      (run protractor_webdriver
        (Event.data Channel.stderr "Selenium is already running" ::
          Event.responseEnd protractor_webdriver.nextRequest "OKOK" ::
            [Event.data Channel.stdout "Exception thrown: x",
             Event.data Channel.stdout "Fatal error",
             Event.data Channel.stdout "Failed to start",
             Event.timeout 0,
             Event.processExit 1])).2 = 0 :=
  (C4_restart_then_silent protractor_webdriver
    ⟨defaultTarget, defaultOptions, false, [], rfl⟩ rfl rfl rfl (by decide) Channel.stderr
    "Selenium is already running" (by decide) "OKOK" (by decide)
    [Event.data Channel.stdout "Exception thrown: x",
     Event.data Channel.stdout "Fatal error",
     Event.data Channel.stdout "Failed to start",
     Event.timeout 0,
     Event.processExit 1] (by decide)).2.1

/-! ## C5: a failed shutdown on the restart path -/

/-- C5, as stated, fails: handling a shutdown response without `OKOK` after an
already-running text does not invoke `grunt.fatal`; it issues a second shutdown request. -/
theorem C5_counterexample :
    (run protractor_webdriver
      [Event.data Channel.stderr "Selenium is already running",
       Event.responseEnd 0 "ERROR"]).2 =
      [Effect.httpGet 0
         "http://localhost:4444/selenium-server/driver/?cmd=shutDownSeleniumServer",
       Effect.httpGet 1
         "http://localhost:4444/selenium-server/driver/?cmd=shutDownSeleniumServer"] := by
  decide

section

variable [HttpGet]

/-- C5, amended: for an instance with neither status flag set that handles an
already-running text and then a shutdown response whose body does not contain `OKOK`
(there is a response, so `http.get` took the URL), the handling of that response creates no
new instance and invokes no callback: it calls `destroy()`, which destroys the streams and
issues a second shutdown request; `grunt.fatal` is invoked when the response of that second
request ends, whatever its body. -/
theorem C5_failed_shutdown_is_retried_before_fatal (s : Instance) (hreach : Reachable s)
    (h1 : s.stopping = false) (h2 : s.stopped = false) (hd : s.destroyed = false)
    (haccept : HttpGet.throws (shutdownUrl s.server) = false)
    (ch : Channel) (out : String) (hout : firstMatch out = some Branch.running)
    (body : String) (hbody : SHUTDOWN_OK_REGEXP_test body = false) :
    (step (step s (Event.data ch out)).1 (Event.responseEnd s.nextRequest body)).2 =
      [Effect.httpGet (s.nextRequest + 1) (shutdownUrl s.server)] ∧
    (step (step s (Event.data ch out)).1
      (Event.responseEnd s.nextRequest body)).1.destroyed = true ∧
    ∀ body2,
      (step (step (step s (Event.data ch out)).1 (Event.responseEnd s.nextRequest body)).1
        (Event.responseEnd (s.nextRequest + 1) body2)).2 = [Effect.fatal (fatalMessage s)] := by
  obtain ⟨ts, hstep⟩ :=
    running_text_step s (inv_of_reachable s hreach) h1 h2 hd haccept ch out hout
  unfold shutdownUrl at haccept
  rw [hstep]
  simp [step, List.lookup, stopOnEnd, hbody, invoke, destroy, exit, stop, shutdownUrl,
    fatalMessage, haccept]

end

/-- C5, amended, on a fresh instance: the fatal callback comes with the second response. -/
theorem C5_failed_shutdown_is_retried_before_fatal_witness :
    (step (step (step protractor_webdriver
        (Event.data Channel.stderr "Selenium is already running")).1
        (Event.responseEnd 0 "ERROR")).1 (Event.responseEnd 1 "ERROR")).2 =
      [Effect.fatal "Selenium terminated unexpectedly"] :=
  (C5_failed_shutdown_is_retried_before_fatal protractor_webdriver
    ⟨defaultTarget, defaultOptions, false, [], rfl⟩ rfl rfl rfl (by decide)
    Channel.stderr "Selenium is already running" (by decide) "ERROR" (by decide)).2.2 "ERROR"

/-! ## C6: the success value of a shutdown -/

section

variable [HttpGet]

/-- C6: when the response of a `stop` that was given a callback ends, the stopping flag is
cleared, the success value is stored in the stopped flag and passed to the callback, and
that value is true exactly when the accumulated body contains `OKOK` in any mix of upper and
lower case: true for `OKOK` and `okok extra text`, false for `ERROR` and the empty body. -/
theorem C6_stop_success_iff_body_contains_OKOK (cb : StopCallback) (body : String)
    (s : Instance) :
    stopOnEnd (some cb) body s =
      invoke cb (SHUTDOWN_OK_REGEXP_test body)
        { s with stopping := false, stopped := SHUTDOWN_OK_REGEXP_test body } ∧
    (∀ req, s.requests.lookup req = some (some cb) →
      step s (Event.responseEnd req body) =
        invoke cb (SHUTDOWN_OK_REGEXP_test body)
          { s with
              requests := s.requests.filter (fun p => p.1 != req)
              stopping := false
              stopped := SHUTDOWN_OK_REGEXP_test body }) ∧
    (SHUTDOWN_OK_REGEXP_test body = true ↔ ContainsOKOK body) ∧
    SHUTDOWN_OK_REGEXP_test "OKOK" = true ∧
    SHUTDOWN_OK_REGEXP_test "okok extra text" = true ∧
    SHUTDOWN_OK_REGEXP_test "ERROR" = false ∧
    SHUTDOWN_OK_REGEXP_test "" = false := by
  refine ⟨rfl, ?_, SHUTDOWN_OK_iff body, by decide, by decide, by decide, by decide⟩
  intro req h
  simp only [step, h]
  rfl

end

/-- C6, at the request an already-running text opens on a fresh instance, answered with
`okok extra text`: the retry callback receives `true` and creates the new instance. -/
theorem C6_stop_success_iff_body_contains_OKOK_witness :
    step (stop (some StopCallback.retry) protractor_webdriver).1
        (Event.responseEnd 0 "okok extra text") =
      ({ protractor_webdriver with stopped := true, nextRequest := 1 },
       [Effect.newWebdriver defaultTarget defaultOptions true]) :=
  ((C6_stop_success_iff_body_contains_OKOK StopCallback.retry "okok extra text"
      (stop (some StopCallback.retry) protractor_webdriver).1).2.1 0 (by decide)).trans
    (by decide)

/-! ## C7: the endpoint announcement -/

/-- C7, as stated, fails: an announced address that does not end in `/wd/hub` is not always
stored as it is (`/wd/hub` is removed from its middle), and an address `b + "/wd/hub"` is not
always stored as `b` (the leftmost `/wd/hub` is the one removed). -/
theorem C7_counterexample :
    (REMOTE_REGEXP_exec
        "RemoteWebDriver instances should connect to: http://10.0.0.5:4444/wd/hub/status" =
        some "http://10.0.0.5:4444/wd/hub/status" ∧
      (data "RemoteWebDriver instances should connect to: http://10.0.0.5:4444/wd/hub/status"
        protractor_webdriver).1.server = "http://10.0.0.5:4444/status") ∧
    (REMOTE_REGEXP_exec
        "RemoteWebDriver instances should connect to: http://h/wd/hubs/wd/hub" =
        some ("http://h/wd/hubs" ++ "/wd/hub") ∧
      (data "RemoteWebDriver instances should connect to: http://h/wd/hubs/wd/hub"
        protractor_webdriver).1.server = "http://hs/wd/hub") := by
  decide

section

variable [HttpGet]

/-- C7, amended: for a text handled as an endpoint announcement whose captured address `a`
is not blank, the endpoint becomes `a` with its leftmost `/wd/hub` removed; it is `b` when
`a = b + "/wd/hub"` and `/wd/hub` does not occur in `b`, and it is `a` when `/wd/hub` does
not occur in `a`. -/
theorem C7_endpoint_drops_leftmost_wd_hub (out : String) (s : Instance) (a : String)
    (hbranch : firstMatch out = some Branch.remote)
    (hexec : REMOTE_REGEXP_exec out = some a)
    (hblank : (trim a.data).length > 0) :
    (data out s).1.server = String.mk (removeFirst "/wd/hub".data a.data) ∧
    (∀ b : String, a = b ++ "/wd/hub" → ¬ Occurs "/wd/hub".data b.data →
      (data out s).1.server = b) ∧
    (¬ Occurs "/wd/hub".data a.data → (data out s).1.server = a) := by
  have hs : (data out s).1.server = String.mk (removeFirst "/wd/hub".data a.data) := by
    rw [data_eq_body, hbranch]
    simp only [Branch.body, hexec, if_pos hblank]
  refine ⟨hs, ?_, ?_⟩
  · intro b hab hb
    rw [hs, hab, String.data_append, removeFirst_wdhub_suffix b.data hb]
  · intro ha
    rw [hs, removeFirst_of_not_occurs _ _ ha]

end

/-- C7, amended, at the address of the specification: `http://10.0.0.5:4444/wd/hub` is
stored as `http://10.0.0.5:4444`. -/
theorem C7_endpoint_drops_leftmost_wd_hub_witness :
    (data "RemoteWebDriver instances should connect to: http://10.0.0.5:4444/wd/hub"
      protractor_webdriver).1.server = "http://10.0.0.5:4444" :=
  (C7_endpoint_drops_leftmost_wd_hub
    "RemoteWebDriver instances should connect to: http://10.0.0.5:4444/wd/hub"
    protractor_webdriver "http://10.0.0.5:4444/wd/hub" (by decide) (by decide) (by decide)).2.1
    "http://10.0.0.5:4444" (by decide)
    (by rw [← search_exact_iff]; decide)

/-! ## C8: the session counter and the drain check -/

/-- C8, as stated, fails: a delete-session text handled by a fresh instance, whose counter
is 0, takes the counter to -1 and requests a shutdown. -/
theorem C8_counterexample :
    (data "Executing: [delete session: abc]" protractor_webdriver).1.sessions = -1 ∧
    (data "Executing: [delete session: abc]" protractor_webdriver).2 =
      [Effect.httpGet 0
        "http://localhost:4444/selenium-server/driver/?cmd=shutDownSeleniumServer"] := by
  decide

section

variable [HttpGet]

/-- C8, amended: a delete-session text handled at a positive session counter decrements it,
and handling a text issues a shutdown request with the no-op callback (a session-drain
shutdown) exactly when the text is a delete-session text, the decremented counter is at most
0, neither status flag is set and `http.get` takes the shutdown URL; this includes a
delete-session text handled while the counter is 0.  When `http.get` throws instead, the
drain step issues no request: the exception is uncaught and the stopping flag stays set. -/
theorem C8_drain_request_iff (out : String) (s : Instance) :
    (firstMatch out = some Branch.sessionDelete → 0 < s.sessions →
      (data out s).1.sessions = s.sessions - 1) ∧
    ((data out s).1.requests = s.requests ++ [(s.nextRequest, some StopCallback.noop)] ↔
      (firstMatch out = some Branch.sessionDelete ∧ s.sessions - 1 ≤ 0 ∧
        s.stopping = false ∧ s.stopped = false ∧
        HttpGet.throws (shutdownUrl s.server) = false)) ∧
    (firstMatch out = some Branch.sessionDelete → s.sessions - 1 ≤ 0 →
      s.stopping = false → s.stopped = false →
      HttpGet.throws (shutdownUrl s.server) = false →
      (data out s).2 = [Effect.httpGet s.nextRequest (shutdownUrl s.server)]) ∧
    (firstMatch out = some Branch.sessionDelete → s.sessions - 1 ≤ 0 →
      s.stopping = false → s.stopped = false →
      HttpGet.throws (shutdownUrl s.server) = true →
      (data out s).2 = [Effect.uncaught] ∧ (data out s).1.requests = s.requests ∧
        (data out s).1.stopping = true) := by
  have hne := list_ne_append_singleton s.requests (s.nextRequest, some StopCallback.noop)
  have hstop : ∀ (cb : StopCallback) (s0 : Instance), cb ≠ StopCallback.noop →
      s0.requests = s.requests → s0.nextRequest = s.nextRequest →
      ¬ (stop (some cb) s0).1.requests =
        s.requests ++ [(s.nextRequest, some StopCallback.noop)] := by
    intro cb s0 hcb e1 e2
    rcases stop_cases (some cb) s0 with ⟨-, e⟩ | ⟨-, -, -, e⟩ | ⟨-, -, -, e⟩ <;> rw [e]
    · rw [e1]; exact hne
    · show ¬ s0.requests = _
      rw [e1]; exact hne
    · simp [e1, e2, hcb]
  have hdestroy : ∀ (s0 : Instance),
      s0.requests = s.requests → s0.nextRequest = s.nextRequest →
      ¬ (destroy none s0).1.requests =
        s.requests ++ [(s.nextRequest, some StopCallback.noop)] := by
    intro s0 e1 e2
    rcases destroy_cases none s0 with ⟨-, e⟩ | ⟨-, -, -, e⟩ | ⟨-, -, -, e⟩ <;> rw [e]
    · rw [e1]; exact hne
    · show ¬ s0.requests = _
      rw [e1]; exact hne
    · simp [e1, e2]
  rw [data_eq_body]
  refine ⟨?_, ?_, ?_, ?_⟩
  · intro h _
    rw [h]
    simp only [Branch.body]
    split
    · rcases destroy_cases (some StopCallback.noop) { s with sessions := s.sessions - 1 }
        with ⟨-, e⟩ | ⟨-, -, -, e⟩ | ⟨-, -, -, e⟩ <;> rw [e]
    · rfl
  · cases hfm : firstMatch out with
    | none => simp [hne]
    | some b =>
      cases b <;> simp only [Branch.body]
      · split
        · split <;> simp [hne]
        · simp [hne]
      · simp [started, hne]
      · split
        · exact iff_of_false (hstop StopCallback.retry _ (by decide) (by rfl) (by rfl)) (by simp)
        · exact iff_of_false (hstop StopCallback.retry _ (by decide) (by rfl) (by rfl)) (by simp)
      · simp [hne]
      · exact iff_of_false (hdestroy _ (by rfl) (by rfl)) (by simp)
      · exact iff_of_false (hdestroy _ (by rfl) (by rfl)) (by simp)
      · simp [hne]
      · by_cases hs : s.sessions - 1 ≤ 0
        · rw [if_pos hs]
          rcases destroy_cases (some StopCallback.noop) { s with sessions := s.sessions - 1 }
            with ⟨hc, e⟩ | ⟨c1, c2, c3, e⟩ | ⟨c1, c2, c3, e⟩ <;> rw [e]
          · have hc' : ¬ (s.stopping = false ∧ s.stopped = false) := by
              rintro ⟨a, b⟩
              rcases hc with hc | hc
              · exact absurd (a.symm.trans hc) (by simp)
              · exact absurd (b.symm.trans hc) (by simp)
            simp only [hne, false_iff]
            rintro ⟨-, -, a, b, -⟩
            exact hc' ⟨a, b⟩
          · have c3' : HttpGet.throws (shutdownUrl s.server) = true := c3
            simp [hne, c3']
          · have c1' : s.stopping = false := c1
            have c2' : s.stopped = false := c2
            have c3' : HttpGet.throws (shutdownUrl s.server) = false := c3
            simp [hs, c1', c2', c3']
        · rw [if_neg hs]
          simp [hne, hs]
  · intro h hs h1 h2 ha
    rw [h]
    simp only [Branch.body, if_pos hs]
    rw [destroy_active _ { s with sessions := s.sessions - 1 } h1 h2 ha]
  · intro h hs h1 h2 ha
    rw [h]
    simp only [Branch.body, if_pos hs]
    rw [destroy_thrown _ { s with sessions := s.sessions - 1 } h1 h2 ha]
    exact ⟨rfl, rfl, rfl⟩

end

/-- C8, amended, at the delete-session text that takes the counter from 1 to 0. -/
theorem C8_drain_request_iff_witness :
    (data "Executing: [delete session: abc]"
        { protractor_webdriver with sessions := 1 }).1.sessions = 1 - 1 ∧
    (data "Executing: [delete session: abc]" { protractor_webdriver with sessions := 1 }).2 =
      [Effect.httpGet 0 (shutdownUrl "http://localhost:4444")] :=
  ⟨(C8_drain_request_iff _ _).1 (by decide) (by decide),
   (C8_drain_request_iff _ _).2.2.1 (by decide) (by decide) rfl rfl (by decide)⟩

/-! ## C9: n sessions opened and closed -/

/-- C9, as stated, fails: an instance whose endpoint was announced as an `https` address has
session count 0 and neither status flag set, yet for it a new-session text followed by a
delete-session text issues no shutdown request: `http.get` throws for the URL, the exception
is uncaught and the stopping flag stays set. -/
theorem C9_counterexample :
    (run protractor_webdriver
      [Event.data Channel.stdout
        "RemoteWebDriver instances should connect to: https://127.0.0.1:4444/wd/hub"]).1 =
      { protractor_webdriver with server := "https://127.0.0.1:4444" } ∧
    (run { protractor_webdriver with server := "https://127.0.0.1:4444" }
      [Event.data Channel.stdout "Executing: [new session: a]",
       Event.data Channel.stdout "Executing: [delete session: a]"]).2 = [Effect.uncaught] ∧
    (run { protractor_webdriver with server := "https://127.0.0.1:4444" }
      [Event.data Channel.stdout "Executing: [new session: a]",
       Event.data Channel.stdout "Executing: [delete session: a]"]).1.requests = [] := by
  decide

section

variable [HttpGet]

theorem draining_delete_step (s : Instance) (hd : s.destroyed = false)
    (hs : s.sessions = 1) (e : Event) (he : isText Branch.sessionDelete e = true) :
    step s e = destroy (some StopCallback.noop) { s with sessions := 0 } := by
  obtain ⟨ch, out, rfl, hout⟩ := isText_true _ _ he
  rw [step_data_live _ hd, data_eq_body, hout]
  simp [Branch.body, hs]

/-- C9, amended: for n >= 1 and an instance with session count 0 and neither status flag
set, handling n new-session texts and then n delete-session texts leaves the count at 0 and
has no effect at all before the n-th delete-session text.  If `http.get` takes the shutdown
URL of the instance's endpoint, the n-th delete-session text issues the one shutdown
request, and when the response of that request ends, whatever its body, no callback is
invoked.  If `http.get` throws for that URL, the n-th delete-session text issues no request:
the exception is uncaught and the stopping flag stays set. -/
theorem C9_sessions_drain_once (n : Nat) (hn : 1 ≤ n) (s : Instance) (hreach : Reachable s)
    (hsess : s.sessions = 0) (h1 : s.stopping = false) (h2 : s.stopped = false)
    (hd : s.destroyed = false) (news dels : List Event)
    (hnews : news.length = n) (hdels : dels.length = n)
    (hN : ∀ e ∈ news, isText Branch.sessionNew e = true)
    (hD : ∀ e ∈ dels, isText Branch.sessionDelete e = true) :
    (run s (news ++ dels)).1.sessions = 0 ∧
    (∀ k, k < n → (run s (news ++ dels.take k)).2 = []) ∧
    (HttpGet.throws (shutdownUrl s.server) = false →
      (run s (news ++ dels)).2 = [Effect.httpGet s.nextRequest (shutdownUrl s.server)] ∧
      ∀ body,
        (step (run s (news ++ dels)).1 (Event.responseEnd s.nextRequest body)).2 = []) ∧
    (HttpGet.throws (shutdownUrl s.server) = true →
      (run s (news ++ dels)).2 = [Effect.uncaught] ∧
      (run s (news ++ dels)).1.requests = [] ∧
      (run s (news ++ dels)).1.stopping = true) := by
  have hw := inv_of_reachable s hreach
  have hr := hw.1 h1
  have hnewsrun := run_new_sessions news s hN hd
  have hpre : ∀ k, k < n → run s (news ++ dels.take k) =
      ({ s with sessions := (n : Int) - k }, []) := by
    intro k hk
    have hlen : (dels.take k).length = k := by
      rw [List.length_take]; omega
    rw [run_append, hnewsrun]
    dsimp only
    rw [run_delete_sessions (dels.take k) { s with sessions := s.sessions + news.length }
      (fun x hx => hD x (List.mem_of_mem_take hx)) hd
      (by simp only [hlen, hsess, hnews]; omega)]
    simp [hlen, hsess, hnews]
  obtain ⟨m, rfl⟩ : ∃ m, n = m + 1 := ⟨n - 1, by omega⟩
  have hsplit : dels = dels.take m ++ dels.drop m := (List.take_append_drop m dels).symm
  obtain ⟨e, he⟩ : ∃ e, dels.drop m = [e] := by
    have hl : (dels.drop m).length = 1 := by rw [List.length_drop]; omega
    match hdm : dels.drop m, hl with
    | [e], _ => exact ⟨e, rfl⟩
  have hemem : e ∈ dels := by
    have : e ∈ dels.drop m := by rw [he]; exact List.mem_singleton_self e
    exact List.mem_of_mem_drop this
  have hfull : run s (news ++ dels) = destroy (some StopCallback.noop) { s with sessions := 0 } := by
    rw [hsplit, he, ← List.append_assoc, run_append, hpre m (by omega), run_cons]
    dsimp only
    rw [draining_delete_step { s with sessions := ((m + 1 : Nat) : Int) - m } hd
      (by simp) e (hD e hemem), run_nil]
    simp
  refine ⟨?_, fun k hk => by rw [hpre k hk], ?_, ?_⟩
  · rw [hfull]
    rcases destroy_cases (some StopCallback.noop) { s with sessions := 0 }
      with ⟨-, e⟩ | ⟨-, -, -, e⟩ | ⟨-, -, -, e⟩ <;> rw [e]
  · intro ha
    rw [hfull, destroy_active _ { s with sessions := 0 } h1 h2 ha]
    refine ⟨rfl, ?_⟩
    intro body
    simp [step, List.lookup, stopOnEnd, invoke, hr]
  · intro ha
    rw [hfull, destroy_thrown _ { s with sessions := 0 } h1 h2 ha]
    exact ⟨rfl, hr, rfl⟩

end

/-- C9, amended, on a fresh instance with two sessions. -/
theorem C9_sessions_drain_once_witness :
    (run protractor_webdriver
      ([Event.data Channel.stdout "Executing: [new session: a]",
        Event.data Channel.stdout "Executing: [new session: b]"] ++
       [Event.data Channel.stdout "Executing: [delete session: a]",
        Event.data Channel.stdout "Executing: [delete session: b]"])).2 =
      [Effect.httpGet 0 (shutdownUrl "http://localhost:4444")] :=
  ((C9_sessions_drain_once 2 (by decide) protractor_webdriver
    ⟨defaultTarget, defaultOptions, false, [], rfl⟩ rfl rfl rfl rfl
    [Event.data Channel.stdout "Executing: [new session: a]",
     Event.data Channel.stdout "Executing: [new session: b]"]
    [Event.data Channel.stdout "Executing: [delete session: a]",
     Event.data Channel.stdout "Executing: [delete session: b]"]
    rfl rfl (by decide) (by decide)).2.2.1 (by decide)).1

/-! ## C10: the exit of the process -/

section

variable [HttpGet]

/-- C10, what the code does: the listener `start` registers for `exit` and `close` is the
function `exit` itself, not the function it returns, so the notification leaves the
instance as it is and causes no effect; with neither status flag set no stream is
destroyed, no shutdown is requested and `grunt.fatal` is not invoked. -/
theorem C10_exit_event_is_ignored (s : Instance) (code : Int) :
    step s (Event.processExit code) = (s, []) ∧
    step protractor_webdriver (Event.processExit 1) = (protractor_webdriver, []) ∧
    List.countP isFatal (run protractor_webdriver [Event.processExit 1, Event.processExit 1]).2 = 0 :=
  ⟨rfl, rfl, rfl⟩

end

/-! ## C11: exception and fatal-error texts -/

/-- C11, as stated, fails: handling an exception text or a fatal-error text on a fresh
instance invokes no callback; it only issues the shutdown request. -/
theorem C11_counterexample :
    (step protractor_webdriver (Event.data Channel.stdout "Exception thrown: boom")).2 =
      [Effect.httpGet 0
        "http://localhost:4444/selenium-server/driver/?cmd=shutDownSeleniumServer"] ∧
    (step protractor_webdriver (Event.data Channel.stdout "Fatal error")).2 =
      [Effect.httpGet 0
        "http://localhost:4444/selenium-server/driver/?cmd=shutDownSeleniumServer"] := by
  decide

section

variable [HttpGet]

/-- C11, amended: for an instance with neither status flag set, handling an exception text
or a fatal-error text destroys the streams and invokes no callback and creates no instance.
If `http.get` takes the shutdown URL of the instance's endpoint, the text issues one
shutdown request, and `grunt.fatal` is invoked when the response of that request ends,
whatever its body, with the exception text as message after an exception text.  If
`http.get` throws for that URL, no request is issued: the exception is uncaught and the
stopping flag stays set. -/
theorem C11_fatal_after_shutdown_response (s : Instance) (hreach : Reachable s)
    (h1 : s.stopping = false) (h2 : s.stopped = false) (hd : s.destroyed = false)
    (ch : Channel) (out : String)
    (hout : firstMatch out = some Branch.exception ∨ firstMatch out = some Branch.fatal) :
    (step s (Event.data ch out)).1.destroyed = true ∧
    (HttpGet.throws (shutdownUrl s.server) = false →
      (step s (Event.data ch out)).2 =
        [Effect.httpGet s.nextRequest (shutdownUrl s.server)] ∧
      ∀ body,
        (step (step s (Event.data ch out)).1 (Event.responseEnd s.nextRequest body)).2 =
          [Effect.fatal (fatalMessage (step s (Event.data ch out)).1)]) ∧
    (HttpGet.throws (shutdownUrl s.server) = true →
      (step s (Event.data ch out)).2 = [Effect.uncaught] ∧
      (step s (Event.data ch out)).1.requests = [] ∧
      (step s (Event.data ch out)).1.stopping = true) ∧
    (firstMatch out = some Branch.exception →
      fatalMessage (step s (Event.data ch out)).1 = out) ∧
    (firstMatch out = some Branch.fatal →
      fatalMessage (step s (Event.data ch out)).1 = fatalMessage s) := by
  have hr := (inv_of_reachable s hreach).1 h1
  rw [step_data_live _ hd, data_eq_body]
  rcases hout with hout | hout
  · have hne := exception_text_nonempty out hout
    rw [hout]
    dsimp only [Branch.body]
    refine ⟨?_, ?_, ?_, ?_, ?_⟩
    · exact destroy_sets_destroyed _ _ h1 h2
    · intro ha
      rw [destroy_active _ { s with stackTrace := some out } h1 h2 ha]
      simp [hr, step, List.lookup, stopOnEnd, invoke, fatalMessage, hne]
    · intro ha
      rw [destroy_thrown _ { s with stackTrace := some out } h1 h2 ha]
      exact ⟨rfl, hr, rfl⟩
    · intro _
      rcases destroy_cases none { s with stackTrace := some out }
        with ⟨-, e⟩ | ⟨-, -, -, e⟩ | ⟨-, -, -, e⟩ <;> rw [e] <;> simp [fatalMessage, hne]
    · intro h
      exact absurd h (by simp)
  · rw [hout]
    dsimp only [Branch.body]
    refine ⟨?_, ?_, ?_, ?_, ?_⟩
    · exact destroy_sets_destroyed _ _ h1 h2
    · intro ha
      rw [destroy_active _ s h1 h2 ha]
      simp [hr, step, List.lookup, stopOnEnd, invoke, fatalMessage]
    · intro ha
      rw [destroy_thrown _ s h1 h2 ha]
      exact ⟨rfl, hr, rfl⟩
    · intro h
      exact absurd h (by simp)
    · intro _
      rcases destroy_cases none s
        with ⟨-, e⟩ | ⟨-, -, -, e⟩ | ⟨-, -, -, e⟩ <;> rw [e] <;> simp [fatalMessage]

end

/-- C11, amended, on a fresh instance that handles an exception text: the fatal callback
comes with the shutdown response. -/
theorem C11_fatal_after_shutdown_response_witness :
    (step (step protractor_webdriver (Event.data Channel.stdout "Exception thrown: boom")).1
      (Event.responseEnd protractor_webdriver.nextRequest "OKOK")).2 =
      [Effect.fatal (fatalMessage
        (step protractor_webdriver (Event.data Channel.stdout "Exception thrown: boom")).1)] :=
  ((C11_fatal_after_shutdown_response protractor_webdriver
    ⟨defaultTarget, defaultOptions, false, [], rfl⟩ rfl rfl rfl
    Channel.stdout "Exception thrown: boom" (Or.inl (by decide))).2.1 (by decide)).2 "OKOK"

/-! ## C12: one shutdown at a time -/

section

variable [HttpGet]

/-- C12: a `stop` called while the stopping or the stopped flag is set changes nothing and
issues no request (its callback is not even stored); in every state an instance reaches the
two flags are not both set, at most one shutdown request is outstanding, and one is
outstanding only while the stopping flag is set; `stop` issues a request only when both
flags are clear, and then sets the stopping flag (when `http.get` throws for the URL, the
flag is set all the same and no request exists); while the stopping flag is set it stays
set, and no request is issued, until the response of the outstanding request ends; and no
request is issued by an event that finds the stopped flag set. -/
theorem C12_one_shutdown_at_a_time (context : Context) (options : Options)
    (restarted : Bool) (evs : List Event) :
    (∀ cb s, (s.stopping = true ∨ s.stopped = true) → stop cb s = (s, [])) ∧
    ¬ ((run (Webdriver context options restarted) evs).1.stopping = true ∧
        (run (Webdriver context options restarted) evs).1.stopped = true) ∧
    (run (Webdriver context options restarted) evs).1.requests.length ≤ 1 ∧
    ((run (Webdriver context options restarted) evs).1.requests ≠ [] →
      (run (Webdriver context options restarted) evs).1.stopping = true) ∧
    (∀ cb s, (stop cb s).2 ≠ [] →
      s.stopping = false ∧ s.stopped = false ∧ (stop cb s).1.stopping = true ∧
        (HttpGet.throws (shutdownUrl s.server) = false →
          (stop cb s).2 = [Effect.httpGet s.nextRequest (shutdownUrl s.server)] ∧
          (stop cb s).1.requests = s.requests ++ [(s.nextRequest, cb)]) ∧
        (HttpGet.throws (shutdownUrl s.server) = true →
          (stop cb s).2 = [Effect.uncaught] ∧ (stop cb s).1.requests = s.requests)) ∧
    (∀ e, (run (Webdriver context options restarted) evs).1.stopping = true →
      (∀ req body, e = Event.responseEnd req body →
        (run (Webdriver context options restarted) evs).1.requests.lookup req = none) →
      (step (run (Webdriver context options restarted) evs).1 e).1.stopping = true ∧
        List.countP isHttpGet (step (run (Webdriver context options restarted) evs).1 e).2 = 0) ∧
    (∀ e, (run (Webdriver context options restarted) evs).1.stopped = true →
      List.countP isHttpGet (step (run (Webdriver context options restarted) evs).1 e).2 = 0) := by
  have hw : WellFormed (run (Webdriver context options restarted) evs).1 :=
    inv_of_reachable _ ⟨context, options, restarted, evs, rfl⟩
  have hx := run_exclusive evs (Webdriver context options restarted) (fun _ => rfl)
  refine ⟨fun cb s h => stop_idle cb s h, ?_, hw.2, ?_, ?_, ?_, ?_⟩
  · rintro ⟨a, b⟩
    rw [hx a] at b
    exact absurd b (by simp)
  · intro hne
    cases hs : (run (Webdriver context options restarted) evs).1.stopping with
    | true => rfl
    | false => exact absurd (hw.1 hs) hne
  · intro cb s h
    by_cases hc : s.stopping = true ∨ s.stopped = true
    · rw [stop_idle cb s hc] at h
      exact absurd rfl h
    · simp only [not_or, Bool.not_eq_true] at hc
      refine ⟨hc.1, hc.2, ?_, ?_, ?_⟩
      · rcases stop_cases cb s with ⟨hi, -⟩ | ⟨-, -, -, e⟩ | ⟨-, -, -, e⟩
        · exact absurd hi (by simp [hc.1, hc.2])
        · rw [e]
        · rw [e]
      · intro ha
        rw [stop_active cb s hc.1 hc.2 ha]
        exact ⟨rfl, rfl⟩
      · intro ha
        rw [stop_thrown cb s hc.1 hc.2 ha]
        exact ⟨rfl, rfl⟩
  · intro e hs he
    exact step_stopping_stays _ e hs he
  · intro e hs
    have hstopping : (run (Webdriver context options restarted) evs).1.stopping = false := by
      cases hc : (run (Webdriver context options restarted) evs).1.stopping with
      | false => rfl
      | true => rw [hx hc] at hs; exact absurd hs (by simp)
    by_cases he : isText Branch.started e = true
    · rcases started_text_effects _ e he with h | h <;> rw [h] <;> simp [isHttpGet]
    · simp only [Bool.not_eq_true] at he
      exact (step_quiet isHttpGet timerBlind_isHttpGet _ e he hs (hw.1 hstopping)).2.2

end

/-- C12, after an exception text on a fresh instance: a second `stop` is a no-op, and the
firing of a timer leaves the stopping flag set. -/
theorem C12_one_shutdown_at_a_time_witness :
    stop (some StopCallback.noop)
        (run protractor_webdriver [Event.data Channel.stdout "Exception thrown: boom"]).1 =
      ((run protractor_webdriver [Event.data Channel.stdout "Exception thrown: boom"]).1, []) ∧
    (step (run protractor_webdriver [Event.data Channel.stdout "Exception thrown: boom"]).1
      (Event.timeout 0)).1.stopping = true :=
  ⟨(C12_one_shutdown_at_a_time defaultTarget defaultOptions false []).1 _ _ (Or.inl (by decide)),
   ((C12_one_shutdown_at_a_time defaultTarget defaultOptions false
      [Event.data Channel.stdout "Exception thrown: boom"]).2.2.2.2.2.1
      (Event.timeout 0) (by decide) (fun _ _ h => Event.noConfusion h)).1⟩

/-! ## C13: the shutdown URL -/

/-- C13, as stated, fails: the announced address `http://10.0.0.5:4444/wd/hub/status` has no
trailing `/wd/hub` to strip, yet the shutdown request a fatal-error text then causes does
not go to that address followed by the shutdown path: `/wd/hub` was removed from its
middle. -/
theorem C13_counterexample :
    REMOTE_REGEXP_exec
        "RemoteWebDriver instances should connect to: http://10.0.0.5:4444/wd/hub/status" =
      some "http://10.0.0.5:4444/wd/hub/status" ∧
    List.isSuffixOf "/wd/hub".data "http://10.0.0.5:4444/wd/hub/status".data = false ∧
    (run protractor_webdriver
      [Event.data Channel.stdout
        "RemoteWebDriver instances should connect to: http://10.0.0.5:4444/wd/hub/status",
       Event.data Channel.stdout "Fatal error"]).2 =
      [Effect.httpGet 0
        "http://10.0.0.5:4444/status/selenium-server/driver/?cmd=shutDownSeleniumServer"] := by
  decide

theorem search_leftmost (lit : List Char) (l pre r : List Char)
    (h : l = pre ++ lit ++ r)
    (hleft : ∀ pre' r', l = pre' ++ lit ++ r' → pre.length ≤ pre'.length) :
    search false lit l = some r := by
  induction l generalizing pre with
  | nil =>
    have h1 : pre = [] := by
      cases pre with
      | nil => rfl
      | cons a b => simp at h
    subst h1
    have h2 : lit = [] := by
      cases lit with
      | nil => rfl
      | cons a b => simp at h
    subst h2
    have h3 : r = [] := by
      cases r with
      | nil => rfl
      | cons a b => simp at h
    subst h3
    simp [search, matchHere]
  | cons c cs ih =>
    unfold search
    by_cases hm : matchHere false lit (c :: cs) = true
    · obtain ⟨rest, hrest⟩ := (matchHere_exact_iff lit (c :: cs)).1 hm
      have h0 := hleft [] rest (by simpa using hrest)
      have hpre : pre = [] := List.length_eq_zero.1 (Nat.le_zero.1 h0)
      subst hpre
      rw [if_pos hm]
      simp only [List.nil_append] at h
      rw [h, List.drop_left]
    · rw [if_neg hm]
      cases pre with
      | nil =>
        exact absurd ((matchHere_exact_iff lit (c :: cs)).2 ⟨r, by simpa using h⟩) hm
      | cons a pre2 =>
        simp only [List.cons_append, List.cons.injEq] at h
        obtain ⟨rfl, hcs⟩ := h
        apply ih pre2 hcs
        intro pre' r' h'
        have := hleft (c :: pre') r' (by simp [h'])
        simpa using this

theorem search_some_leftmost (lit : List Char) (l r : List Char)
    (h : search false lit l = some r) :
    ∃ pre, l = pre ++ lit ++ r ∧
      ∀ pre' r', l = pre' ++ lit ++ r' → pre.length ≤ pre'.length := by
  induction l with
  | nil =>
    unfold search at h
    split at h
    · rename_i hm
      obtain ⟨rest, hrest⟩ := (matchHere_exact_iff lit []).1 hm
      simp only [Option.some.injEq] at h
      subst h
      have hl : lit = [] := by
        cases lit with
        | nil => rfl
        | cons a b => simp at hrest
      subst hl
      exact ⟨[], rfl, fun _ _ _ => Nat.zero_le _⟩
    · exact absurd h (by simp)
  | cons c cs ih =>
    unfold search at h
    split at h
    · rename_i hm
      obtain ⟨rest, hrest⟩ := (matchHere_exact_iff lit (c :: cs)).1 hm
      simp only [Option.some.injEq] at h
      rw [hrest, List.drop_left] at h
      subst h
      exact ⟨[], by simpa using hrest, fun _ _ _ => Nat.zero_le _⟩
    · rename_i hm
      obtain ⟨pre, hpre, hleft⟩ := ih h
      refine ⟨c :: pre, by simp [hpre], ?_⟩
      intro pre' r' h'
      cases pre' with
      | nil =>
        exact absurd ((matchHere_exact_iff lit (c :: cs)).2 ⟨r', by simpa using h'⟩) hm
      | cons a p2 =>
        simp only [List.cons_append, List.cons.injEq] at h'
        have := hleft p2 r' h'.2
        simpa using this

theorem dotStar_line (a rest : List Char) (ha : ∀ c ∈ a, isLineTerminator c = false)
    (hrest : rest = [] ∨ ∃ c tl, rest = c :: tl ∧ isLineTerminator c = true) :
    dotStar (a ++ rest) = a := by
  unfold dotStar
  induction a with
  | nil =>
    rcases hrest with rfl | ⟨c, tl, rfl, hc⟩
    · rfl
    · simp [List.takeWhile, hc]
  | cons x xs ih =>
    have hx := ha x (List.mem_cons_self x xs)
    simp only [List.cons_append, List.takeWhile_cons, hx, Bool.not_false, if_true]
    rw [ih (fun c hc => ha c (List.mem_cons_of_mem x hc))]

theorem dotStar_rest (r : List Char) :
    ∃ rest, r = dotStar r ++ rest ∧ (∀ c ∈ dotStar r, isLineTerminator c = false) ∧
      (rest = [] ∨ ∃ c tl, rest = c :: tl ∧ isLineTerminator c = true) := by
  unfold dotStar
  induction r with
  | nil => exact ⟨[], rfl, by simp, Or.inl rfl⟩
  | cons x xs ih =>
    by_cases hx : isLineTerminator x = true
    · exact ⟨x :: xs, by simp [List.takeWhile, hx], by simp [List.takeWhile, hx],
        Or.inr ⟨x, xs, rfl, hx⟩⟩
    · simp only [Bool.not_eq_true] at hx
      obtain ⟨rest, h1, h2, h3⟩ := ih
      refine ⟨rest, ?_, ?_, h3⟩
      · simp only [List.takeWhile_cons, hx, Bool.not_false, if_true, List.cons_append]
        rw [← h1]
      · simp only [List.takeWhile_cons, hx, Bool.not_false, if_true, List.mem_cons]
        rintro c (rfl | hc)
        · exact hx
        · exact h2 c hc

theorem mem_dropWhile_of_not (p : Char → Bool) (l : List Char) (c : Char) (hc : c ∈ l)
    (hp : p c = false) : c ∈ l.dropWhile p := by
  induction l with
  | nil => exact absurd hc (by simp)
  | cons x xs ih =>
    by_cases hx : p x = true
    · rw [List.dropWhile_cons_of_pos hx]
      rcases List.mem_cons.1 hc with rfl | h
      · rw [hp] at hx; exact absurd hx (by simp)
      · exact ih h
    · rw [List.dropWhile_cons_of_neg hx]
      exact hc

theorem trim_length_pos_iff (a : String) : (trim a.data).length > 0 ↔ ¬ Blank a := by
  unfold trim Blank
  constructor
  · intro h hb
    have hd : a.data.dropWhile (fun c => isWhiteSpace c || isLineTerminator c) = [] := by
      rw [List.dropWhile_eq_nil_iff]
      intro c hc
      rcases hb c hc with h1 | h1 <;> simp [h1]
    rw [hd] at h
    simp at h
  · intro h
    simp only [not_forall] at h
    obtain ⟨c, hc, hn⟩ := h
    have hp : (fun c => isWhiteSpace c || isLineTerminator c) c = false := by
      simp only [not_or, Bool.not_eq_true] at hn
      simp [hn.1, hn.2]
    have h1 := mem_dropWhile_of_not (fun c => isWhiteSpace c || isLineTerminator c) _ c hc hp
    have h2 := mem_dropWhile_of_not (fun c => isWhiteSpace c || isLineTerminator c) _ c
      (List.mem_reverse.2 h1) hp
    have h3 : c ∈ ((a.data.dropWhile (fun c => isWhiteSpace c || isLineTerminator c)).reverse.dropWhile
        (fun c => isWhiteSpace c || isLineTerminator c)).reverse := List.mem_reverse.2 h2
    exact List.length_pos_of_mem h3

theorem removeFirst_leftmost (lit l : List Char) :
    (¬ Occurs lit l ∧ removeFirst lit l = l) ∨
    ∃ pre post, l = pre ++ lit ++ post ∧ removeFirst lit l = pre ++ post ∧
      ∀ pre' post', l = pre' ++ lit ++ post' → pre.length ≤ pre'.length := by
  by_cases hocc : Occurs lit l
  · right
    induction l with
    | nil =>
      obtain ⟨pre, post, h⟩ := hocc
      have hl : lit = [] := by
        cases lit with
        | nil => rfl
        | cons a b => simp at h
      subst hl
      exact ⟨[], [], rfl, rfl, fun _ _ _ => Nat.zero_le _⟩
    | cons c cs ih =>
      unfold removeFirst
      by_cases hm : matchHere false lit (c :: cs) = true
      · obtain ⟨rest, hrest⟩ := (matchHere_exact_iff lit (c :: cs)).1 hm
        rw [if_pos hm]
        refine ⟨[], rest, by simpa using hrest, ?_, fun _ _ _ => Nat.zero_le _⟩
        rw [hrest, List.drop_left]
        rfl
      · rw [if_neg hm]
        obtain ⟨pre, post, h⟩ := hocc
        cases pre with
        | nil =>
          exact absurd ((matchHere_exact_iff lit (c :: cs)).2 ⟨post, by simpa using h⟩) hm
        | cons a p2 =>
          simp only [List.cons_append, List.cons.injEq] at h
          obtain ⟨pre0, post0, e1, e2, e3⟩ := ih ⟨p2, post, h.2⟩
          refine ⟨c :: pre0, post0, by simp [e1], by simp [e2], ?_⟩
          intro pre' post' h'
          cases pre' with
          | nil =>
            exact absurd ((matchHere_exact_iff lit (c :: cs)).2 ⟨post', by simpa using h'⟩) hm
          | cons a q2 =>
            simp only [List.cons_append, List.cons.injEq] at h'
            have := e3 q2 post' h'.2
            simpa using this
  · left
    exact ⟨hocc, removeFirst_of_not_occurs lit l hocc⟩

theorem exec_of_announces (out a : String) (h : Announces out a) :
    firstMatch out = some Branch.remote ∧ REMOTE_REGEXP_exec out = some a := by
  obtain ⟨pre, rest, h1, h2, h3, h4⟩ := h
  have hs := search_leftmost "RemoteWebDriver instances should connect to: ".data out.data pre
    (a.data ++ rest) (by rw [h1, List.append_assoc])
    (fun pre' r' h' => h2 pre' r' h')
  constructor
  · rw [firstMatch_cases]
    simp [REMOTE_REGEXP_test, hs]
  · unfold REMOTE_REGEXP_exec
    rw [hs]
    simp only [Option.map, Option.some.injEq]
    rw [dotStar_line a.data rest h3 h4]

theorem announces_of_exec (out a : String) (h : REMOTE_REGEXP_exec out = some a) :
    Announces out a := by
  unfold REMOTE_REGEXP_exec at h
  cases hs : search false "RemoteWebDriver instances should connect to: ".data out.data with
  | none => rw [hs] at h; exact absurd h (by simp)
  | some r =>
    rw [hs] at h
    simp only [Option.map, Option.some.injEq] at h
    obtain ⟨pre, hpre, hleft⟩ := search_some_leftmost _ _ _ hs
    obtain ⟨rest, e1, e2, e3⟩ := dotStar_rest r
    have ha : a.data = dotStar r := by rw [← h]
    refine ⟨pre, rest, ?_, hleft, ?_, e3⟩
    · rw [hpre, ha]
      conv_lhs => rw [e1]
      simp only [List.append_assoc]
    · rw [ha]; exact e2

theorem serverAfter_of_blank (endpoint out : String)
    (h : ∀ a, Announces out a → Blank a) : serverAfter endpoint out = endpoint := by
  unfold serverAfter
  split
  · cases he : REMOTE_REGEXP_exec out with
    | none => rfl
    | some a =>
      have hb := h a (announces_of_exec out a he)
      have : ¬ (trim a.data).length > 0 := fun hp => (trim_length_pos_iff a).1 hp hb
      simp only [this, if_false]
  · rfl

theorem serverAfter_of_announces (endpoint out a : String) (h : Announces out a)
    (hb : ¬ Blank a) : DropsLeftmost "/wd/hub" a (serverAfter endpoint out) := by
  obtain ⟨h1, h2⟩ := exec_of_announces out a h
  unfold serverAfter
  rw [if_pos h1, h2]
  simp only [(trim_length_pos_iff a).2 hb, if_true]
  unfold DropsLeftmost
  rcases removeFirst_leftmost "/wd/hub".data a.data with ⟨e1, e2⟩ | ⟨pre, post, e1, e2, e3⟩
  · left
    exact ⟨e1, by rw [e2]⟩
  · right
    exact ⟨pre, post, e1, e2, e3⟩

theorem foldl_serverAfter_of_blank (texts : List String) (endpoint : String)
    (h : ∀ out ∈ texts, ∀ a, Announces out a → Blank a) :
    texts.foldl serverAfter endpoint = endpoint := by
  induction texts generalizing endpoint with
  | nil => rfl
  | cons x xs ih =>
    rw [List.foldl_cons, serverAfter_of_blank endpoint x (h x (List.mem_cons_self x xs))]
    exact ih endpoint (fun o ho => h o (List.mem_cons_of_mem x ho))

section

variable [HttpGet]

/-- C13, amended: every shutdown request an event makes an instance issue targets the
endpoint the instance has at that moment followed by
`/selenium-server/driver/?cmd=shutDownSeleniumServer`, and `stop` builds the URL from the
endpoint it finds when it runs.  That endpoint is `http://localhost:4444` (also for a
restarted instance) if the instance has handled no endpoint announcement with a non-blank
address; otherwise it is the address of the most recent such announcement without its
leftmost `/wd/hub` (the address itself if `/wd/hub` does not occur in it). -/
theorem C13_shutdown_request_url (context : Context) (options : Options)
    (restarted : Bool) (evs : List Event) :
    (∀ e n u, Effect.httpGet n u ∈ (step (run (Webdriver context options restarted) evs).1 e).2 →
      u = (run (Webdriver context options restarted) evs).1.server ++
        "/selenium-server/driver/?cmd=shutDownSeleniumServer") ∧
    (∀ cb s n u, Effect.httpGet n u ∈ (stop cb s).2 →
      u = s.server ++ "/selenium-server/driver/?cmd=shutDownSeleniumServer") ∧
    ((∀ out ∈ handledTexts (Webdriver context options restarted) evs,
        ∀ a, Announces out a → Blank a) →
      (run (Webdriver context options restarted) evs).1.server = "http://localhost:4444") ∧
    (∀ before out after a,
      handledTexts (Webdriver context options restarted) evs = before ++ out :: after →
      Announces out a → ¬ Blank a →
      (∀ out' ∈ after, ∀ a', Announces out' a' → Blank a') →
      DropsLeftmost "/wd/hub" a (run (Webdriver context options restarted) evs).1.server) := by
  have hserver := (run_server_stackTrace evs (Webdriver context options restarted)).1
  refine ⟨?_, ?_, ?_, ?_⟩
  · intro e n u h
    rcases step_effects_shape _ e _ h with h | h | h | h | h | h
    · simp only [Effect.httpGet.injEq] at h
      exact h.2
    · simp at h
    · simp at h
    · simp at h
    · simp at h
    · simp [isTimerEffect] at h
  · intro cb s n u h
    rcases stop_effects cb s _ h with h | h
    · simp only [Effect.httpGet.injEq] at h
      exact h.2
    · simp at h
  · intro h
    rw [hserver, foldl_serverAfter_of_blank _ _ h]
    rfl
  · intro before out after a htexts ha hb hafter
    rw [hserver, htexts, List.foldl_append, List.foldl_cons,
      foldl_serverAfter_of_blank after _ hafter]
    exact serverAfter_of_announces _ out a ha hb

end

/-- C13, amended, after an announcement of `http://10.0.0.5:4444/wd/hub`: the endpoint is
that address without its `/wd/hub`. -/
theorem C13_shutdown_request_url_witness :
    DropsLeftmost "/wd/hub" "http://10.0.0.5:4444/wd/hub"
      (run protractor_webdriver
        [Event.data Channel.stdout
          "RemoteWebDriver instances should connect to: http://10.0.0.5:4444/wd/hub"]).1.server :=
  (C13_shutdown_request_url defaultTarget defaultOptions false
    [Event.data Channel.stdout
      "RemoteWebDriver instances should connect to: http://10.0.0.5:4444/wd/hub"]).2.2.2
    [] "RemoteWebDriver instances should connect to: http://10.0.0.5:4444/wd/hub" []
    "http://10.0.0.5:4444/wd/hub" (by decide)
    ⟨[], [], by decide, fun _ _ _ => Nat.zero_le _, by decide, Or.inl rfl⟩
    (fun h => absurd (h 'h' (by decide)) (by decide))
    (fun _ h => absurd h (List.not_mem_nil _))

/-! ## C14: the started marker -/

section

variable [HttpGet]

/-- C14: handling a text that contains the started marker and no endpoint announcement
clears the stopped flag, changes nothing else, and has the single effect of one call of
`done`: no fatal callback, no shutdown request, no timer, no new instance. -/
theorem C14_started_text_signals_ready (out : String) (s : Instance)
    (hstarted : Occurs "Started org.openqa.jetty.jetty.Server".data out.data)
    (hremote : ¬ Occurs "RemoteWebDriver instances should connect to: ".data out.data) :
    data out s = ({ s with stopped := false }, [Effect.done]) := by
  have h1 : REMOTE_REGEXP_test out = false := by
    cases h : REMOTE_REGEXP_test out with
    | false => rfl
    | true => exact absurd ((search_exact_iff _ _).1 h) hremote
  have h2 : STARTED_REGEXP_test out = true := (search_exact_iff _ _).2 hstarted
  rw [data_eq_body, firstMatch_cases, h1, h2]
  rfl

end

/-- C14, at the line Selenium prints. -/
theorem C14_started_text_signals_ready_witness :
    data "INFO - Started org.openqa.jetty.jetty.Server@1" protractor_webdriver =
      ({ protractor_webdriver with stopped := false }, [Effect.done]) :=
  C14_started_text_signals_ready "INFO - Started org.openqa.jetty.jetty.Server@1"
    protractor_webdriver ((search_exact_iff _ _).1 (by decide))
    (fun h => absurd ((search_exact_iff _ _).2 h) (by decide))

/-! ## C15: the message of the fatal callback -/

/-- C15, as stated, fails: the trace is not the text that follows the marker (`: boom`),
it is the whole handled text. -/
theorem C15_counterexample :
    EXCEPTION_REGEXP_exec "ERROR Exception thrown: boom" = some ": boom" ∧
    (run protractor_webdriver
      [Event.data Channel.stdout "ERROR Exception thrown: boom",
       Event.responseEnd 0 "OKOK"]).2 =
      [Effect.httpGet 0
         "http://localhost:4444/selenium-server/driver/?cmd=shutDownSeleniumServer",
       Effect.fatal "ERROR Exception thrown: boom"] := by
  decide

section

variable [HttpGet]

/-- C15, amended: whenever an instance invokes `grunt.fatal`, the message is the captured
trace if the instance handled an exception-marker text before, and `Selenium terminated
unexpectedly` otherwise; the captured trace is the whole text of the most recent
exception-marker text handled. -/
theorem C15_fatal_message_is_last_exception_text (context : Context) (options : Options)
    (restarted : Bool) (evs : List Event)
    (e : Event) (m : String)
    (h : Effect.fatal m ∈ (step (run (Webdriver context options restarted) evs).1 e).2) :
    m = (lastException (handledTexts (Webdriver context options restarted) evs)).getD
        "Selenium terminated unexpectedly" ∧
    (∀ out s, firstMatch out = some Branch.exception →
      (data out s).1.stackTrace = some out) := by
  have htrace : (run (Webdriver context options restarted) evs).1.stackTrace =
      lastException (handledTexts (Webdriver context options restarted) evs) :=
    (run_server_stackTrace evs (Webdriver context options restarted)).2
  constructor
  · have hne : ∀ t, (run (Webdriver context options restarted) evs).1.stackTrace = some t → t ≠ "" := by
      rw [htrace]
      exact capture_nonempty _ none (fun t ht => by simp at ht)
    rw [← htrace, ← fatalMessage_of_trace _ hne]
    rcases step_effects_shape _ e _ h with h | h | h | h | h | h
    · simp at h
    · simp only [Effect.fatal.injEq] at h
      exact h
    · simp at h
    · simp at h
    · simp at h
    · simp [isTimerEffect] at h
  · intro out s hout
    rw [data_stackTrace]
    simp [capture, hout]

end

/-- C15, amended, on a fresh instance that handles an exception text and gets the shutdown
response. -/
theorem C15_fatal_message_is_last_exception_text_witness :
    "ERROR Exception thrown: boom" =
      (lastException (handledTexts protractor_webdriver
        [Event.data Channel.stdout "ERROR Exception thrown: boom"])).getD
        "Selenium terminated unexpectedly" :=
  (C15_fatal_message_is_last_exception_text defaultTarget defaultOptions false
    [Event.data Channel.stdout "ERROR Exception thrown: boom"]
    (Event.responseEnd 0 "OKOK") "ERROR Exception thrown: boom" (by decide)).1

/-! ## C16: a shutdown request that errors -/

/-- C16, as stated, fails: when the shutdown request of a fatal-error text errors, no
callback is invoked, the error is thrown uncaught, and the stopping flag stays set. -/
theorem C16_counterexample :
    (run protractor_webdriver
      [Event.data Channel.stdout "Fatal error", Event.requestError 0]).2 =
      [Effect.httpGet 0
         "http://localhost:4444/selenium-server/driver/?cmd=shutDownSeleniumServer",
       Effect.uncaught] ∧
    (run protractor_webdriver
      [Event.data Channel.stdout "Fatal error", Event.requestError 0]).1.stopping = true := by
  decide

section

variable [HttpGet]

theorem step_waiting (p : Effect → Bool) (hp : TimerBlind p) (hdone : p Effect.done = false)
    (s : Instance) (e : Event) (h1 : s.stopping = true)
    (he : ∀ req body, e ≠ Event.responseEnd req body)
    (hu : p Effect.uncaught = false ∨ ∀ req, e ≠ Event.requestError req) :
    (step s e).1.stopping = true ∧ List.countP p (step s e).2 = 0 := by
  cases e with
  | data ch out =>
    simp only [step]
    split
    · simp [h1]
    · rw [data_eq_body]
      split
      · rename_i b _
        cases b <;> simp only [Branch.body]
        · split
          · split <;> simp [h1]
          · simp [h1]
        · simp [started, h1, hdone]
        · split <;> simp [stop, h1, hp.2]
        · simp [h1, hp.1]
        · simp [destroy, exit, h1]
        · simp [destroy, exit, h1]
        · simp [h1]
        · split <;> simp [destroy, exit, h1]
      · simp [h1]
  | timeout t =>
    simp only [step]
    split
    · simp [destroy, exit, h1]
    · simp [h1]
  | responseEnd req body => exact absurd rfl (he req body)
  | requestError req =>
    rcases hu with hu | hu
    · simp only [step]
      split <;> simp [h1, hu]
    · exact absurd rfl (hu req)
  | processExit code => simp [step, onProcessExit, h1]

theorem run_waiting (p : Effect → Bool) (hp : TimerBlind p) (hdone : p Effect.done = false)
    (evs : List Event) (s : Instance) (h1 : s.stopping = true)
    (he : ∀ e ∈ evs, ∀ req body, e ≠ Event.responseEnd req body)
    (hu : p Effect.uncaught = false ∨ ∀ e ∈ evs, ∀ req, e ≠ Event.requestError req) :
    (run s evs).1.stopping = true ∧ List.countP p (run s evs).2 = 0 := by
  induction evs generalizing s with
  | nil => simp [run_nil, h1]
  | cons e es ih =>
    rw [run_cons]
    obtain ⟨a1, a2⟩ := step_waiting p hp hdone s e h1 (he e (List.mem_cons_self e es))
      (hu.imp id (fun h => h e (List.mem_cons_self e es)))
    obtain ⟨b1, b2⟩ := ih (step s e).1 a1 (fun x hx => he x (List.mem_cons_of_mem e hx))
      (hu.imp id (fun h x hx => h x (List.mem_cons_of_mem e hx)))
    simp [b1, a2, b2]

/-- C16, amended: the instance registers no `error` listener, neither on the shutdown
request nor on its response, and the stop callback is invoked from the `end` of the response
alone.  While a shutdown request is outstanding the stopping flag is set, and for every
sequence of events without the end of a response it stays set and the instance invokes no
`grunt.fatal`, creates no instance and issues no shutdown request; so a connection that
fails after the response began, with no `end` to follow, raises nothing and releases
nothing (no uncaught exception occurs unless a request emits `error`).  If the request
emits `error`, the error is thrown uncaught, the callback of the `stop` is dropped without
being invoked, and whatever events follow, a late response included, the stopping flag
remains set and the instance invokes no `grunt.fatal`, creates no instance and issues no
shutdown request. -/
theorem C16_transport_error_is_not_handled (s : Instance) (hreach : Reachable s)
    (req : Nat) (cb : Option StopCallback) (hreq : s.requests.lookup req = some cb) :
    s.stopping = true ∧
    (∀ evs, (∀ e ∈ evs, ∀ r body, e ≠ Event.responseEnd r body) →
      (run s evs).1.stopping = true ∧
      List.countP isFatal (run s evs).2 = 0 ∧
      List.countP isNewWebdriver (run s evs).2 = 0 ∧
      List.countP isHttpGet (run s evs).2 = 0 ∧
      ((∀ e ∈ evs, ∀ r, e ≠ Event.requestError r) → Effect.uncaught ∉ (run s evs).2)) ∧
    step s (Event.requestError req) = ({ s with requests := [] }, [Effect.uncaught]) ∧
    ∀ evs,
      (run (step s (Event.requestError req)).1 evs).1.stopping = true ∧
      (run (step s (Event.requestError req)).1 evs).1.requests = [] ∧
      List.countP isFatal (run (step s (Event.requestError req)).1 evs).2 = 0 ∧
      List.countP isNewWebdriver (run (step s (Event.requestError req)).1 evs).2 = 0 ∧
      List.countP isHttpGet (run (step s (Event.requestError req)).1 evs).2 = 0 := by
  have hw := inv_of_reachable s hreach
  obtain ⟨hf, hl⟩ := filter_lookup _ _ _ hw.2 hreq
  have hs : s.stopping = true := by
    cases hc : s.stopping with
    | true => rfl
    | false => rw [hw.1 hc] at hreq; simp at hreq
  have hstep : step s (Event.requestError req) =
      ({ s with requests := [] }, [Effect.uncaught]) := by
    simp only [step, hreq, hf]
  refine ⟨hs, ?_, hstep, ?_⟩
  · intro evs hevs
    have hq := fun p hp hd hu => run_waiting p hp hd evs s hs hevs (Or.inl hu)
    refine ⟨(hq isFatal timerBlind_isFatal rfl rfl).1, (hq isFatal timerBlind_isFatal rfl rfl).2,
      (hq isNewWebdriver timerBlind_isNewWebdriver rfl rfl).2,
      (hq isHttpGet timerBlind_isHttpGet rfl rfl).2, ?_⟩
    intro hne hmem
    have hc := (run_waiting (fun eff => decide (eff = Effect.uncaught)) ⟨by simp, by simp⟩
      (by simp) evs s hs hevs (Or.inr hne)).2
    rw [List.countP_eq_zero] at hc
    exact absurd (hc _ hmem) (by simp)
  · intro evs
    rw [hstep]
    have hq := fun p hp hd => run_stuck p hp hd evs { s with requests := [] } hs rfl
    exact ⟨(hq isFatal timerBlind_isFatal rfl).1, (hq isFatal timerBlind_isFatal rfl).2.1,
      (hq isFatal timerBlind_isFatal rfl).2.2,
      (hq isNewWebdriver timerBlind_isNewWebdriver rfl).2.2,
      (hq isHttpGet timerBlind_isHttpGet rfl).2.2⟩

end

/-- C16, amended, on a fresh instance whose shutdown request, caused by a fatal-error text,
errors: a timer, the exit of the process and a late response stay without consequence. -/
theorem C16_transport_error_is_not_handled_witness :
    List.countP isFatal
      (run (step (run protractor_webdriver [Event.data Channel.stdout "Fatal error"]).1
          (Event.requestError 0)).1
        [Event.timeout 0, Event.processExit 1, Event.responseEnd 0 "OKOK"]).2 = 0 :=
  ((C16_transport_error_is_not_handled
      (run protractor_webdriver [Event.data Channel.stdout "Fatal error"]).1
      ⟨defaultTarget, defaultOptions, false,
        [Event.data Channel.stdout "Fatal error"], rfl⟩ 0
      (some StopCallback.fatalDefault) (by decide)).2.2.2
    [Event.timeout 0, Event.processExit 1, Event.responseEnd 0 "OKOK"]).2.2.1

/-! ## C17: `destroy()` without a callback -/

/-- C17, as stated, fails: an instance whose endpoint was announced as an `https` address
has neither status flag set, yet a `destroy()` without a callback (here from a fatal-error
text) issues no shutdown request for it: `http.get` throws for the URL, the exception is
uncaught, the stopping flag stays set, and no response can ever bring `grunt.fatal`. -/
theorem C17_counterexample :
    (run protractor_webdriver
      [Event.data Channel.stdout
        "RemoteWebDriver instances should connect to: https://127.0.0.1:4444/wd/hub"]).1 =
      { protractor_webdriver with server := "https://127.0.0.1:4444" } ∧
    destroy none { protractor_webdriver with server := "https://127.0.0.1:4444" } =
      ({ protractor_webdriver with
          server := "https://127.0.0.1:4444"
          destroyed := true
          stopping := true },
       [Effect.uncaught]) ∧
    step { protractor_webdriver with server := "https://127.0.0.1:4444" }
        (Event.data Channel.stdout "Fatal error") =
      destroy none { protractor_webdriver with server := "https://127.0.0.1:4444" } := by
  decide

section

variable [HttpGet]

/-- C17, amended: for an instance with neither status flag set (here with any trace and any
armed timers, as an exception text or a timer leaves them), `destroy()` without a callback
destroys the streams and sets the stopping flag.  If `http.get` takes the shutdown URL of
the instance's endpoint, it issues exactly one shutdown request; when the response of that
request ends, the stopping flag is cleared, the stopped flag becomes the result of the
`OKOK` test on the body, and `grunt.fatal` is invoked exactly once, whatever the body.  If
`http.get` throws for that URL, no request is issued, the exception is uncaught and the
stopping flag stays set.  An exception text, a fatal-error text and the firing of the grace
timer run this `destroy()`; a failure text arms the timer with 500 ms. -/
theorem C17_destroy_without_callback (s : Instance) (hreach : Reachable s)
    (h1 : s.stopping = false) (h2 : s.stopped = false)
    (tr : Option String) (ts : List Nat) :
    (HttpGet.throws (shutdownUrl s.server) = false →
      destroy none { s with stackTrace := tr, timers := ts } =
        ({ s with
            stackTrace := tr
            timers := ts
            destroyed := true
            stopping := true
            requests := [(s.nextRequest, some StopCallback.fatalDefault)]
            nextRequest := s.nextRequest + 1 },
         [Effect.httpGet s.nextRequest (shutdownUrl s.server)]) ∧
      ∀ body,
        step (destroy none { s with stackTrace := tr, timers := ts }).1
            (Event.responseEnd s.nextRequest body) =
          ({ s with
              stackTrace := tr
              timers := ts
              destroyed := true
              stopping := false
              stopped := SHUTDOWN_OK_REGEXP_test body
              requests := []
              nextRequest := s.nextRequest + 1 },
           [Effect.fatal (fatalMessage { s with stackTrace := tr })])) ∧
    (HttpGet.throws (shutdownUrl s.server) = true →
      destroy none { s with stackTrace := tr, timers := ts } =
        ({ s with
            stackTrace := tr
            timers := ts
            destroyed := true
            stopping := true
            requests := [] },
         [Effect.uncaught])) ∧
    (∀ ch out, s.destroyed = false → firstMatch out = some Branch.exception →
      step s (Event.data ch out) =
        destroy none { s with stackTrace := some out, timers := s.timers }) ∧
    (∀ ch out, s.destroyed = false → firstMatch out = some Branch.fatal →
      step s (Event.data ch out) =
        destroy none { s with stackTrace := s.stackTrace, timers := s.timers }) ∧
    (∀ t, t ∈ s.timers →
      step s (Event.timeout t) =
        destroy none { s with stackTrace := s.stackTrace, timers := s.timers.erase t }) ∧
    (∀ ch out, s.destroyed = false → firstMatch out = some Branch.failure →
      (step s (Event.data ch out)).2 = [Effect.setTimeout s.nextTimer 500] ∧
      s.nextTimer ∈ (step s (Event.data ch out)).1.timers) := by
  have hr := (inv_of_reachable s hreach).1 h1
  refine ⟨?_, ?_, ?_, ?_, ?_, ?_⟩
  · intro ha
    rw [destroy_active none { s with stackTrace := tr, timers := ts } h1 h2 ha]
    refine ⟨by simp [hr], ?_⟩
    intro body
    simp [hr, step, List.lookup, stopOnEnd, invoke, fatalMessage]
  · intro ha
    rw [destroy_thrown none { s with stackTrace := tr, timers := ts } h1 h2 ha]
    simp [hr]
  · intro ch out hd hout
    rw [step_data_live _ hd, data_eq_body, hout]
    rfl
  · intro ch out hd hout
    rw [step_data_live _ hd, data_eq_body, hout]
    rfl
  · intro t ht
    simp [step, ht]
  · intro ch out hd hout
    rw [step_data_live _ hd, data_eq_body, hout]
    simp [Branch.body]

end

/-- C17, amended, on a fresh instance whose shutdown is answered with `ERROR`:
`grunt.fatal` is invoked once all the same. -/
theorem C17_destroy_without_callback_witness :
    step (destroy none { protractor_webdriver with stackTrace := none, timers := [] }).1
        (Event.responseEnd protractor_webdriver.nextRequest "ERROR") =
      ({ protractor_webdriver with
          stackTrace := none
          timers := []
          destroyed := true
          stopping := false
          stopped := SHUTDOWN_OK_REGEXP_test "ERROR"
          requests := []
          nextRequest := protractor_webdriver.nextRequest + 1 },
       [Effect.fatal (fatalMessage { protractor_webdriver with stackTrace := none })]) :=
  ((C17_destroy_without_callback protractor_webdriver
    ⟨defaultTarget, defaultOptions, false, [], rfl⟩ rfl rfl none []).1 (by decide)).2 "ERROR"

end ProtractorWebdriver
